import Mathlib

/-!
Shallow embedding of the FastFlow (nexus) workflow-graph backend.

Part 1: graph mutation engine (`src/nexus/core/graph_ops.py`) and the
structural validator (`src/nexus/core/validators.py`), together with the
data model of `src/nexus/core/schemas.py`.

Python `dict` values are modelled by insertion-ordered association lists
(`PyDict`), open-ended JSON-ish payloads by `JVal`, and the engine's
aliasing of the input graph's node objects by an explicit cell store
(`cells`) indexed through `NodeRef`.
-/

namespace Nexus

/-- JSON-like Python value (node `data` payloads, input values). -/
inductive JVal where
  | null : JVal
  | s (v : String) : JVal
  | i (v : Int) : JVal
  | b (v : Bool) : JVal
  | arr (xs : List JVal) : JVal
  | obj (kvs : List (String × JVal)) : JVal

/-- Python truthiness of a `JVal` (`if value:`). -/
def JVal.truthy : JVal → Bool
  | .null => false
  | .s v => v ≠ ""
  | .i v => v ≠ 0
  | .b v => v
  | .arr xs => !xs.isEmpty
  | .obj kvs => !kvs.isEmpty

/-- Insertion-ordered string-keyed dictionary (Python `dict`). -/
abbrev PyDict := List (String × JVal)

/-- `d.get(k)`: first (unique) value stored under `k`. -/
def pyGet (d : PyDict) (k : String) : Option JVal :=
  match d.find? (fun kv => kv.1 = k) with
  | some kv => some kv.2
  | none => none

/-- `d[k] = v`: replace in place keeping position, else append (Python dict). -/
def pySet (d : PyDict) (k : String) (v : JVal) : PyDict :=
  match d with
  | [] => [(k, v)]
  | kv :: rest => if kv.1 = k then (k, v) :: rest else kv :: pySet rest k v

/-- Generic insertion-ordered association update (replace-in-place or append). -/
def assocSet {α β : Type} [DecidableEq α] (d : List (α × β)) (k : α) (v : β) : List (α × β) :=
  match d with
  | [] => [(k, v)]
  | kv :: rest => if kv.1 = k then (k, v) :: rest else kv :: assocSet rest k v

/-- Generic association lookup. -/
def assocGet {α β : Type} [DecidableEq α] (d : List (α × β)) (k : α) : Option β :=
  match d.find? (fun kv => kv.1 = k) with
  | some kv => some kv.2
  | none => none

/-- `del d[k]` / `d.pop(k)`: drop the entry stored under `k`. -/
def assocDel {α β : Type} [DecidableEq α] (d : List (α × β)) (k : α) : List (α × β) :=
  match d with
  | [] => []
  | kv :: rest => if kv.1 = k then rest else kv :: assocDel rest k

/-- Membership of a key (`k in d`). -/
def assocMem {α β : Type} [DecidableEq α] (d : List (α × β)) (k : α) : Bool :=
  (assocGet d k).isSome

/-- Python `a or b` on optional strings (`None` and `""` are falsy). -/
def pyOrStr (a b : Option String) : Option String :=
  match a with
  | some s => if s = "" then b else some s
  | none => b

/-- Render an optional string the way a Python f-string renders it (`None`). -/
def optStr : Option String → String
  | none => "None"
  | some s => s

/-- `NodeInstance` of `schemas.py`: id, type and open `data` payload. -/
structure NodeInstance where
  id : String
  type : String
  data : PyDict

/-- `EdgeInstance` of `schemas.py`: 4-tuple identity. -/
structure EdgeInstance where
  source : String
  target : String
  source_handle : Option String
  target_handle : Option String
deriving DecidableEq, Repr

/-- `LogicalGraph` of `schemas.py`. -/
structure LogicalGraph where
  nodes : List NodeInstance
  edges : List EdgeInstance

/-- `InputValueUpdate` of `schemas.py` (validated `{key, value}` item). -/
structure InputValueUpdate where
  key : String
  value : JVal

/-- Per-type validated operation params, as pydantic's `validate_params`
leaves them (e.g. `ADD_EDGE` always carries `source`/`target` strings,
`UPDATE_INPUTS` a list of key/value items; `ADD_NODE` params never carry a
`data` key because `AddNodeParams` has no such field). -/
inductive OpParams where
  | addNode (type : String) (id : Option String) (label name intro avatar version : Option String)
      (position : Option JVal) (inputs outputs : List JVal) : OpParams
  | removeNode (id : Option String) : OpParams
  | addEdge (source target : String) (source_handle target_handle : Option String) : OpParams
  | removeEdge (source target : String) (source_handle target_handle : Option String) : OpParams
  | updateInputs (inputs : List InputValueUpdate) : OpParams
  | autoHeal : OpParams

/-- `Operation` of `schemas.py` (`op_type` is the `params` constructor). -/
structure Operation where
  op_id : Option String
  target_id : Option String
  params : OpParams

/-- Closed error-code set of `OperationError`. -/
inductive ErrCode where
  | MISSING_NODE_TYPE | NODE_NOT_FOUND | EDGE_NOT_FOUND | INVALID_OP
deriving DecidableEq, Repr

/-- `OperationError` of `schemas.py`. -/
structure OperationError where
  code : ErrCode
  message : String
  op_id : Option String
  target_id : Option String
deriving DecidableEq, Repr

/-- `ApplyResult` of `schemas.py`. -/
structure ApplyResult where
  graph : LogicalGraph
  errors : List OperationError
  applied_ops : Nat

/-- Reference held by the engine's `nodes` dict: either an alias of the
`i`-th node object of the input graph, or a freshly created node. -/
inductive NodeRef where
  | orig (i : Nat) : NodeRef
  | fresh (n : NodeInstance) : NodeRef

/-- Edge-dict key: `(source, target, source_handle, target_handle)`. -/
abbrev EdgeKey := String × String × Option String × Option String

/-- Engine state while folding over the operation list. `cells` is the
store of the input graph's node objects (mutated through aliases). -/
structure ApplyState where
  cells : List NodeInstance
  work : List (String × NodeRef)
  edges : List EdgeKey
  errors : List OperationError
  applied : Nat
  freshCounter : Nat

def defaultNode : NodeInstance := ⟨"", "", []⟩

/-- Dereference a `NodeRef` against the current cell store. -/
def resolveRef (cells : List NodeInstance) : NodeRef → NodeInstance
  | .orig i => cells.getD i defaultNode
  | .fresh n => n

/-- Remove the first occurrence of `x` (`dict.pop` on a unique key). -/
def removeFirst {α : Type} [DecidableEq α] : List α → α → List α
  | [], _ => []
  | y :: rest, x => if y = x then rest else y :: removeFirst rest x

/-- Key membership in a plain list. -/
def memKey {α : Type} [DecidableEq α] (l : List α) (x : α) : Bool :=
  l.any (fun y => y = x)

/-- `{n.id: n for n in graph.nodes}` (first-position, last-value on dups). -/
def initWork (nodes : List NodeInstance) : List (String × NodeRef) :=
  (nodes.enum).foldl (fun w ni => assocSet w ni.2.id (NodeRef.orig ni.1)) []

/-- `{(e.source, e.target, e.source_handle, e.target_handle): e ...}`. -/
def initEdges (edges : List EdgeInstance) : List EdgeKey :=
  edges.foldl (fun w e =>
    let k : EdgeKey := (e.source, e.target, e.source_handle, e.target_handle)
    if memKey w k then w else w ++ [k]) []

/-- Rebuild an `EdgeInstance` from its identity key. -/
def edgeOfKey (k : EdgeKey) : EdgeInstance :=
  ⟨k.1, k.2.1, k.2.2.1, k.2.2.2⟩

/-- The synthesized `base_data` dict of the `ADD_NODE` branch (`params`
never holds a `data` key after validation, and `AddNodeParams` has no
`icon` field, so `icon` is always `None`). -/
def addNodeBaseData (node_id node_type : String) (label name intro avatar version : Option String)
    (position : Option JVal) (inputs outputs : List JVal) : PyDict :=
  [("flowNodeType", JVal.s node_type),
   ("name", match pyOrStr name label with | some v => JVal.s v | none => JVal.null),
   ("icon", JVal.null),
   ("avatar", match avatar with | some v => JVal.s v | none => JVal.null),
   ("version", match version with | some v => JVal.s v | none => JVal.null),
   ("intro", match intro with | some v => JVal.s v | none => JVal.null),
   ("position", match position with | some v => v | none => JVal.null),
   ("inputs", JVal.arr inputs),
   ("outputs", JVal.arr outputs),
   ("nodeId", JVal.s node_id)]

/-- `input_map`: index of the last data-inputs item per truthy string
`key` (non-string or falsy keys can never match a string update key). -/
def buildInputMap (items : List JVal) : List (String × Nat) :=
  (items.enum).foldl (fun m it =>
    match it.2 with
    | .obj kvs =>
        match pyGet kvs "key" with
        | some (.s k) => if k = "" then m else assocSet m k it.1
        | _ => m
    | _ => m) []

/-- `input_map[key]["value"] = update.value` for one update. -/
def applyOneUpdate (items : List JVal) (imap : List (String × Nat)) (u : InputValueUpdate) :
    List JVal :=
  match assocGet imap u.key with
  | none => items
  | some i =>
      items.enum.map (fun it =>
        if it.1 = i then
          match it.2 with
          | .obj kvs => JVal.obj (pySet kvs "value" u.value)
          | v => v
        else it.2)

/-- The node object the `UPDATE_INPUTS` branch operates on
(`node = nodes[op.target_id]` resolved through the alias store). -/
def nodeOfWork (st : ApplyState) (tid : String) : NodeInstance :=
  resolveRef st.cells ((assocGet st.work tid).getD (NodeRef.fresh defaultNode))

/-- `data_inputs`: the node's current `data["inputs"]` list (else `[]`). -/
def dataInputsOf (n : NodeInstance) : List JVal :=
  match pyGet n.data "inputs" with
  | some (.arr xs) => xs
  | _ => []

/-- `missing_keys`: update keys absent from the node's current input keys. -/
def missingKeysOf (n : NodeInstance) (updates : List InputValueUpdate) : List String :=
  (updates.filter (fun u => ¬ assocMem (buildInputMap (dataInputsOf n)) u.key)).map
    (fun u => u.key)

/-- One step of the engine's operation loop (`apply_operations` body). -/
def applyOp (freshId : Nat → String) (st : ApplyState) (op : Operation) : ApplyState :=
  match op.params with
  | .addNode node_type id? label name intro avatar version position inputs outputs =>
      let idAndCounter : String × Nat :=
        match pyOrStr id? op.target_id with
        | some v => (v, st.freshCounter)
        | none => (freshId st.freshCounter, st.freshCounter + 1)
      let node_id := idAndCounter.1
      if node_type = "" then
        let e : OperationError :=
          ⟨.MISSING_NODE_TYPE, "ADD_NODE missing type", op.op_id, some node_id⟩
        { st with errors := st.errors ++ [e], freshCounter := idAndCounter.2 }
      else
        let base_data := addNodeBaseData node_id node_type label name intro avatar version
          position inputs outputs
        { st with
          work := assocSet st.work node_id (NodeRef.fresh ⟨node_id, node_type, base_data⟩),
          applied := st.applied + 1,
          freshCounter := idAndCounter.2 }
  | .removeNode id? =>
      let tid := pyOrStr op.target_id id?
      match tid with
      | some s =>
          if assocMem st.work s then
            { st with
              work := assocDel st.work s,
              edges := st.edges.filter (fun k => k.1 ≠ s ∧ k.2.1 ≠ s),
              applied := st.applied + 1 }
          else
            let e : OperationError := ⟨.NODE_NOT_FOUND, "Node not found: " ++ s, op.op_id, tid⟩
            { st with errors := st.errors ++ [e] }
      | none =>
          let e : OperationError := ⟨.NODE_NOT_FOUND, "Node not found: None", op.op_id, none⟩
          { st with errors := st.errors ++ [e] }
  | .addEdge source target sh th =>
      if source ≠ "" ∧ target ≠ "" then
        let k : EdgeKey := (source, target, sh, th)
        { st with
          edges := if memKey st.edges k then st.edges else st.edges ++ [k],
          applied := st.applied + 1 }
      else st
  | .removeEdge source target sh th =>
      if source ≠ "" ∧ target ≠ "" then
        let k : EdgeKey := (source, target, sh, th)
        if memKey st.edges k then
          { st with edges := removeFirst st.edges k, applied := st.applied + 1 }
        else
          let e : OperationError :=
            ⟨.EDGE_NOT_FOUND, "Edge not found: " ++ source ++ " -> " ++ target, op.op_id, none⟩
          { st with errors := st.errors ++ [e] }
      else st
  | .updateInputs updates =>
      match op.target_id with
      | some tid =>
          if assocMem st.work tid then
            let node := nodeOfWork st tid
            if updates.isEmpty then
              let e : OperationError :=
                ⟨.INVALID_OP, "UPDATE_INPUTS requires inputs", op.op_id, some tid⟩
              { st with errors := st.errors ++ [e] }
            else
              let missing := missingKeysOf node updates
              if missing.isEmpty then
                let imap := buildInputMap (dataInputsOf node)
                let items :=
                  updates.foldl (fun its u => applyOneUpdate its imap u) (dataInputsOf node)
                let node2 := { node with data := pySet node.data "inputs" (JVal.arr items) }
                match (assocGet st.work tid).getD (NodeRef.fresh defaultNode) with
                | .orig i =>
                    { st with cells := st.cells.set i node2, applied := st.applied + 1 }
                | .fresh _ =>
                    { st with
                      work := assocSet st.work tid (NodeRef.fresh node2),
                      applied := st.applied + 1 }
              else
                let es : List OperationError := missing.map (fun k =>
                  ⟨.INVALID_OP, "Input key not found: " ++ k, op.op_id, some tid⟩)
                { st with errors := st.errors ++ es }
          else
            let e : OperationError :=
              ⟨.NODE_NOT_FOUND, "Node not found: " ++ tid, op.op_id, some tid⟩
            { st with errors := st.errors ++ [e] }
      | none =>
          let e : OperationError := ⟨.NODE_NOT_FOUND, "Node not found: None", op.op_id, none⟩
          { st with errors := st.errors ++ [e] }
  | .autoHeal => st

/-- `apply_operations` of `graph_ops.py`. `freshId` supplies the ids the
source draws from `uuid.uuid4()`. Returns the `ApplyResult` together with
the input graph as it is observable AFTER the call (the source indexes the
caller's node objects directly, so in-place writes alias back). -/
def apply_operations (freshId : Nat → String) (graph : LogicalGraph)
    (operations : List Operation) : ApplyResult × LogicalGraph :=
  let st0 : ApplyState :=
    { cells := graph.nodes, work := initWork graph.nodes, edges := initEdges graph.edges,
      errors := [], applied := 0, freshCounter := 0 }
  let st := operations.foldl (applyOp freshId) st0
  (⟨⟨st.work.map (fun kv => resolveRef st.cells kv.2), st.edges.map edgeOfKey⟩,
    st.errors, st.applied⟩,
   ⟨st.cells, graph.edges⟩)

/-!
Part 1b: `validate_graph` of `src/nexus/core/validators.py`.
-/

/-- Lexicographic code-point comparison of char lists (Python `str <`). -/
def charListLt : List Char → List Char → Bool
  | [], [] => false
  | [], _ :: _ => true
  | _ :: _, [] => false
  | a :: as, b :: bs => a < b || (a = b && charListLt as bs)

/-- Python string `<=` (code-point lexicographic). -/
def pyStrLe (a b : String) : Bool := !(charListLt b.data a.data)

/-- Stable insertion of a string into an ascending list. -/
def sortedInsert (s : String) : List String → List String
  | [] => [s]
  | t :: rest => if pyStrLe s t then s :: t :: rest else t :: sortedInsert s rest

/-- Python `sorted` on strings (lexicographic code-point order). -/
def sortStrings (l : List String) : List String := l.foldr sortedInsert []

/-- Deduplicate keeping first occurrences (used to model Python sets of
node ids before `sorted`). -/
def dedupKeepFirst (l : List String) : List String :=
  l.foldl (fun acc x => if memKey acc x then acc else acc ++ [x]) []

/-- Python f-string rendering of a sorted list of strings (list `repr`). -/
def pyReprStrList (xs : List String) : String :=
  "[" ++ String.intercalate ", " (xs.map (fun s => "\x27" ++ s ++ "\x27")) ++ "]"

/-- `edges_by_source.setdefault(source, []).append(target)` over all edges. -/
def edgesBySource (edges : List EdgeInstance) : List (String × List String) :=
  edges.foldl (fun acc e =>
    match assocGet acc e.source with
    | some lst => assocSet acc e.source (lst ++ [e.target])
    | none => acc ++ [(e.source, [e.target])]) []

/-- The validator's `while frontier:` stack walk. The frontier is kept
top-first (Python pops from the end of the list); `fuel` strictly
dominates the number of iterations, which is bounded by the number of
frontier insertions (≤ nodes + edges). -/
def dfsLoop (ebs : List (String × List String)) :
    Nat → List String → List String → List String
  | 0, _, visited => visited
  | _ + 1, [], visited => visited
  | fuel + 1, n :: front, visited =>
      if memKey visited n then dfsLoop ebs fuel front visited
      else
        let visited2 := visited ++ [n]
        let targets := (assocGet ebs n).getD []
        let pushes := (targets.filter (fun t => ¬ memKey visited2 t)).reverse
        dfsLoop ebs fuel (pushes ++ front) visited2

/-- Is a payload value a Python list? (`isinstance(value, list)`). -/
def isListVal : Option JVal → Bool
  | some (.arr _) => true
  | _ => false

/-- Node-id list of a graph (`[node.id for node in graph.nodes]`). -/
def nodeIds (graph : LogicalGraph) : List String := graph.nodes.map (fun n => n.id)

/-- Duplicate-node-id check of `validate_graph`. -/
def dupIdErrors (graph : LogicalGraph) : List String :=
  let node_ids := nodeIds graph
  let duplicates :=
    sortStrings ((dedupKeepFirst node_ids).filter (fun i => node_ids.count i > 1))
  if duplicates.isEmpty then [] else ["Duplicate node ids: " ++ pyReprStrList duplicates]

/-- Per-node structural checks of `validate_graph` (id/type present, and
`data` exposing list-typed `inputs`/`outputs`). -/
def nodeStructErrors (graph : LogicalGraph) : List String :=
  graph.nodes.foldl (fun acc node =>
    let idTypeErr := if node.id = "" ∨ node.type = "" then ["Node missing id or type"] else []
    let ioErr :=
      if isListVal (pyGet node.data "inputs") ∧ isListVal (pyGet node.data "outputs") then []
      else ["Node " ++ node.id ++ " missing inputs or outputs"]
    acc ++ idTypeErr ++ ioErr) []

/-- Edge-reference check of `validate_graph`. -/
def edgeRefErrors (graph : LogicalGraph) : List String :=
  (graph.edges.filter (fun e =>
      ¬ memKey (nodeIds graph) e.source ∨ ¬ memKey (nodeIds graph) e.target)).map
    (fun e => "Edge invalid: " ++ e.source ++ " -> " ++ e.target)

/-- Mandatory system-node check of `validate_graph`. -/
def requiredTypeErrors (graph : LogicalGraph) : List String :=
  let types := graph.nodes.map (fun n => n.type)
  (if memKey types "userGuide" then [] else ["Missing required node: userGuide"]) ++
  (if memKey types "workflowStart" then [] else ["Missing required node: workflowStart"])

/-- Terminal-node check of `validate_graph` (some node id absent from the
set of edge targets). -/
def terminalErrors (graph : LogicalGraph) : List String :=
  if graph.nodes.isEmpty then []
  else
    let target_ids := graph.edges.map (fun e => e.target)
    let terminal_nodes := (nodeIds graph).filter (fun i => ¬ memKey target_ids i)
    if terminal_nodes.isEmpty then ["No terminal nodes found"] else []

/-- Reachability check of `validate_graph`: walk from every node of the
two system types along outgoing edges, flag never-visited nodes. -/
def unreachableErrors (graph : LogicalGraph) : List String :=
  let start_nodes := (graph.nodes.filter
    (fun n => n.type = "userGuide" ∨ n.type = "workflowStart")).map (fun n => n.id)
  let fuel := (graph.nodes.length + graph.edges.length + 1) * 2
  let visited := dfsLoop (edgesBySource graph.edges) fuel start_nodes.reverse []
  let unreachable :=
    sortStrings ((dedupKeepFirst (nodeIds graph)).filter (fun i => ¬ memKey visited i))
  if unreachable.isEmpty then [] else ["Unreachable nodes: " ++ pyReprStrList unreachable]

/-- `validate_graph` of `validators.py`: full, fail-slow structural check
returning human-readable error strings in source order. -/
def validate_graph (graph : LogicalGraph) : List String :=
  dupIdErrors graph ++ nodeStructErrors graph ++ edgeRefErrors graph ++
  requiredTypeErrors graph ++ terminalErrors graph ++ unreachableErrors graph


/-!
Part 1c: supporting lemmas about the engine.
-/

theorem memKey_iff {α : Type} [DecidableEq α] (l : List α) (x : α) :
    memKey l x = true ↔ x ∈ l := by
  simp [memKey]

theorem mem_assocSet {α β : Type} [DecidableEq α] (k : α) (v : β) :
    ∀ (d : List (α × β)) (p : α × β), p ∈ assocSet d k v → p ∈ d ∨ p = (k, v) := by
  intro d
  induction d with
  | nil =>
      intro p hp
      simp [assocSet] at hp
      right
      exact hp
  | cons kv rest ih =>
      intro p hp
      by_cases h : kv.1 = k
      · simp [assocSet, h] at hp
        rcases hp with h1 | h2
        · right
          rw [h1]
        · left
          exact List.mem_cons_of_mem _ h2
      · simp [assocSet, h] at hp
        rcases hp with h1 | h2
        · left
          rw [h1]
          exact List.mem_cons_self _ _
        · rcases ih p h2 with h3 | h4
          · left
            exact List.mem_cons_of_mem _ h3
          · right
            exact h4

theorem initWork_ref_orig (nodes : List NodeInstance) :
    ∀ p ∈ initWork nodes, ∃ i, p.2 = NodeRef.orig i := by
  have main : ∀ (l : List (Nat × NodeInstance)) (acc : List (String × NodeRef)),
      (∀ p ∈ acc, ∃ i, p.2 = NodeRef.orig i) →
      ∀ p ∈ l.foldl (fun w ni => assocSet w ni.2.id (NodeRef.orig ni.1)) acc,
        ∃ i, p.2 = NodeRef.orig i := by
    intro l
    induction l with
    | nil =>
        intro acc h p hp
        exact h p hp
    | cons x xs ih =>
        intro acc h p hp
        refine ih _ ?_ p hp
        intro q hq
        rcases mem_assocSet _ _ acc q hq with h1 | h2
        · exact h q h1
        · exact ⟨x.1, by rw [h2]⟩
  intro p hp
  exact main nodes.enum [] (by simp) p hp

theorem getD_mem_or_default {α : Type} (l : List α) (i : Nat) (d : α) :
    l.getD i d ∈ l ∨ l.getD i d = d := by
  induction l generalizing i with
  | nil =>
      right
      simp
  | cons x xs ih =>
      cases i with
      | zero =>
          left
          simp
      | succ n =>
          rcases ih n with h | h
          · left
            simp only [List.getD_cons_succ]
            exact List.mem_cons_of_mem _ h
          · right
            simpa using h

/-- Operations the engine skips silently: `AUTO_HEAL`, and `ADD_EDGE` /
`REMOVE_EDGE` whose `source` or `target` is falsy. -/
def silentSkipOp (op : Operation) : Prop :=
  op.params = OpParams.autoHeal ∨
  (∃ s t sh th, op.params = OpParams.addEdge s t sh th ∧ (s = "" ∨ t = "")) ∨
  (∃ s t sh th, op.params = OpParams.removeEdge s t sh th ∧ (s = "" ∨ t = ""))

/-- Per-operation accounting trichotomy of the engine loop: an operation
either is counted once and adds no error, or is uncounted and appends at
least one error, or is uncounted with no error and is a silent skip. -/
theorem applyOp_cases (f : Nat → String) (st : ApplyState) (op : Operation) :
    ((applyOp f st op).applied = st.applied + 1 ∧ (applyOp f st op).errors = st.errors) ∨
    ((applyOp f st op).applied = st.applied ∧
      ∃ es, es ≠ [] ∧ (applyOp f st op).errors = st.errors ++ es) ∨
    ((applyOp f st op).applied = st.applied ∧ (applyOp f st op).errors = st.errors ∧
      silentSkipOp op) := by
  obtain ⟨oid, tid, params⟩ := op
  cases params with
  | addNode ty id? lb nm it av vs ps ins outs =>
      by_cases hty : ty = ""
      · rcases hm : pyOrStr id? tid with _ | v
        · refine Or.inr (Or.inl ⟨by simp [applyOp, hty, hm], ?_⟩)
          exact ⟨[⟨ErrCode.MISSING_NODE_TYPE, "ADD_NODE missing type", oid,
            some (f st.freshCounter)⟩], by simp, by simp [applyOp, hty, hm]⟩
        · refine Or.inr (Or.inl ⟨by simp [applyOp, hty, hm], ?_⟩)
          exact ⟨[⟨ErrCode.MISSING_NODE_TYPE, "ADD_NODE missing type", oid, some v⟩],
            by simp, by simp [applyOp, hty, hm]⟩
      · rcases hm : pyOrStr id? tid with _ | v
        · exact Or.inl ⟨by simp [applyOp, hty, hm], by simp [applyOp, hty, hm]⟩
        · exact Or.inl ⟨by simp [applyOp, hty, hm], by simp [applyOp, hty, hm]⟩
  | removeNode id? =>
      rcases hm : pyOrStr tid id? with _ | v
      · refine Or.inr (Or.inl ⟨by simp [applyOp, hm], ?_⟩)
        exact ⟨[⟨ErrCode.NODE_NOT_FOUND, "Node not found: None", oid, none⟩],
          by simp, by simp [applyOp, hm]⟩
      · by_cases hmem : assocMem st.work v = true
        · exact Or.inl ⟨by simp [applyOp, hm, hmem], by simp [applyOp, hm, hmem]⟩
        · refine Or.inr (Or.inl ⟨by simp [applyOp, hm, hmem], ?_⟩)
          exact ⟨[⟨ErrCode.NODE_NOT_FOUND, "Node not found: " ++ v, oid, some v⟩],
            by simp, by simp [applyOp, hm, hmem]⟩
  | addEdge s t sh th =>
      by_cases hc : s ≠ "" ∧ t ≠ ""
      · exact Or.inl ⟨by simp [applyOp, hc], by simp [applyOp, hc]⟩
      · refine Or.inr (Or.inr ⟨by simp [applyOp, hc], by simp [applyOp, hc], ?_⟩)
        refine Or.inr (Or.inl ⟨s, t, sh, th, rfl, ?_⟩)
        by_cases hs : s = ""
        · exact Or.inl hs
        · right
          rcases not_and_or.mp hc with h | h
          · exact absurd hs h
          · exact not_not.mp h
  | removeEdge s t sh th =>
      by_cases hc : s ≠ "" ∧ t ≠ ""
      · by_cases hk : memKey st.edges (s, t, sh, th) = true
        · exact Or.inl ⟨by simp [applyOp, hc, hk], by simp [applyOp, hc, hk]⟩
        · refine Or.inr (Or.inl ⟨by simp [applyOp, hc, hk], ?_⟩)
          exact ⟨[⟨ErrCode.EDGE_NOT_FOUND, "Edge not found: " ++ s ++ " -> " ++ t, oid, none⟩],
            by simp, by simp [applyOp, hc, hk]⟩
      · refine Or.inr (Or.inr ⟨by simp [applyOp, hc], by simp [applyOp, hc], ?_⟩)
        refine Or.inr (Or.inr ⟨s, t, sh, th, rfl, ?_⟩)
        by_cases hs : s = ""
        · exact Or.inl hs
        · right
          rcases not_and_or.mp hc with h | h
          · exact absurd hs h
          · exact not_not.mp h
  | updateInputs updates =>
      rcases tid with _ | v
      · refine Or.inr (Or.inl ⟨by simp [applyOp], ?_⟩)
        exact ⟨[⟨ErrCode.NODE_NOT_FOUND, "Node not found: None", oid, none⟩],
          by simp, by simp [applyOp]⟩
      · by_cases hmem : assocMem st.work v = true
        · by_cases hne : updates.isEmpty = true
          · refine Or.inr (Or.inl ⟨by simp [applyOp, hmem, hne], ?_⟩)
            exact ⟨[⟨ErrCode.INVALID_OP, "UPDATE_INPUTS requires inputs", oid, some v⟩],
              by simp, by simp [applyOp, hmem, hne]⟩
          · by_cases hmiss : (missingKeysOf (nodeOfWork st v) updates).isEmpty = true
            · rcases hr : (assocGet st.work v).getD (NodeRef.fresh defaultNode) with i | n
              · exact Or.inl ⟨by simp [applyOp, hmem, hne, hmiss, hr],
                  by simp [applyOp, hmem, hne, hmiss, hr]⟩
              · exact Or.inl ⟨by simp [applyOp, hmem, hne, hmiss, hr],
                  by simp [applyOp, hmem, hne, hmiss, hr]⟩
            · refine Or.inr (Or.inl ⟨by simp [applyOp, hmem, hne, hmiss], ?_⟩)
              refine ⟨(missingKeysOf (nodeOfWork st v) updates).map (fun k =>
                ⟨ErrCode.INVALID_OP, "Input key not found: " ++ k, oid, some v⟩), ?_, ?_⟩
              · simp only [ne_eq, List.map_eq_nil_iff]
                intro hcon
                rw [hcon] at hmiss
                simp at hmiss
              · simp [applyOp, hmem, hne, hmiss]
        · refine Or.inr (Or.inl ⟨by simp [applyOp, hmem], ?_⟩)
          exact ⟨[⟨ErrCode.NODE_NOT_FOUND, "Node not found: " ++ v, oid, some v⟩],
            by simp, by simp [applyOp, hmem]⟩
  | autoHeal =>
      exact Or.inr (Or.inr ⟨by simp [applyOp], by simp [applyOp], Or.inl rfl⟩)

theorem foldl_applied_le (f : Nat → String) :
    ∀ (ops : List Operation) (st : ApplyState),
      (ops.foldl (applyOp f) st).applied ≤ st.applied + ops.length := by
  intro ops
  induction ops with
  | nil =>
      intro st
      simp
  | cons op rest ih =>
      intro st
      have hstep : (applyOp f st op).applied ≤ st.applied + 1 := by
        rcases applyOp_cases f st op with ⟨h, _⟩ | ⟨h, _⟩ | ⟨h, _, _⟩ <;> omega
      have h2 := ih (applyOp f st op)
      simp only [List.foldl_cons, List.length_cons]
      omega


/-!
Part 1d: concrete fixtures and graph-engine claims.
-/

/-- Deterministic stand-in for the `uuid.uuid4()` id supply. -/
def cFid : Nat → String := fun n => "uuid" ++ toString n

def emptyGraph : LogicalGraph := ⟨[], []⟩

/-- `data` payload with empty `inputs`/`outputs` lists. -/
def ioData : PyDict := [("inputs", JVal.arr []), ("outputs", JVal.arr [])]

def startNode : NodeInstance := ⟨"start", "workflowStart", ioData⟩

def guideNode : NodeInstance := ⟨"guide", "userGuide", ioData⟩

/-- The spec's two-node scenario graph with the single edge start→guide. -/
def scenarioGraph : LogicalGraph :=
  ⟨[startNode, guideNode], [⟨"start", "guide", none, none⟩]⟩

def removeStartGuideOp : Operation :=
  ⟨none, none, OpParams.removeEdge "start" "guide" none none⟩

/-- Node with current inputs `[{key: "a", value: 1}]`. -/
def mutNode : NodeInstance :=
  ⟨"n", "code",
    [("inputs", JVal.arr [JVal.obj [("key", JVal.s "a"), ("value", JVal.i 1)]]),
     ("outputs", JVal.arr [])]⟩

def mutGraph : LogicalGraph := ⟨[mutNode], []⟩

/-- `UPDATE_INPUTS` writing value 2 to the existing key `a` of node `n`. -/
def mutOp : Operation := ⟨none, some "n", OpParams.updateInputs [⟨"a", JVal.i 2⟩]⟩

/-- The integer `value` of the first inputs item of the first node. -/
def firstInputValueInt (g : LogicalGraph) : Option Int :=
  match g.nodes with
  | n :: _ =>
      match pyGet n.data "inputs" with
      | some (.arr (JVal.obj kvs :: _)) =>
          match pyGet kvs "value" with
          | some (.i v) => some v
          | _ => none
      | _ => none
  | [] => none

/-- Initial engine state over `mutGraph` (what `apply_operations` builds
before folding the operation list). -/
def exState : ApplyState :=
  ⟨mutGraph.nodes, initWork mutGraph.nodes, initEdges mutGraph.edges, [], 0, 0⟩

/-- C1 counterexample: a one-element batch holding a single `AUTO_HEAL`
operation is processed without raising; the operation is NOT counted in
`applied_ops` (0 of 1) yet produces NO entry in `errors`, refuting "every
operation that is not counted in applied_ops has exactly one corresponding
entry in the errors list". -/
theorem autoHeal_uncounted_without_error :
    (apply_operations cFid emptyGraph [⟨none, none, OpParams.autoHeal⟩]).1.applied_ops = 0 ∧
    (apply_operations cFid emptyGraph [⟨none, none, OpParams.autoHeal⟩]).1.errors = [] ∧
    [(⟨none, none, OpParams.autoHeal⟩ : Operation)].length = 1 :=
  ⟨rfl, rfl, rfl⟩

/-- C1 (amended): `apply_operations` is a total function (never raises),
`applied_ops` never exceeds the batch length, and every operation either
is counted exactly once with no error, or is uncounted and appends at
least one error entry (one per unknown key for `UPDATE_INPUTS`, hence
possibly several), or is an uncounted, error-free silent skip — exactly
`AUTO_HEAL` and `ADD_EDGE`/`REMOVE_EDGE` with a falsy source or target. -/
theorem apply_operations_accounting (f : Nat → String) (g : LogicalGraph)
    (ops : List Operation) :
    (apply_operations f g ops).1.applied_ops ≤ ops.length ∧
    ∀ (st : ApplyState) (op : Operation),
      (((applyOp f st op).applied = st.applied + 1 ∧ (applyOp f st op).errors = st.errors) ∨
       ((applyOp f st op).applied = st.applied ∧
         ∃ es, es ≠ [] ∧ (applyOp f st op).errors = st.errors ++ es) ∨
       ((applyOp f st op).applied = st.applied ∧ (applyOp f st op).errors = st.errors ∧
         silentSkipOp op)) := by
  constructor
  · have h := foldl_applied_le f ops
      ⟨g.nodes, initWork g.nodes, initEdges g.edges, [], 0, 0⟩
    simpa [apply_operations] using h
  · intro st op
    exact applyOp_cases f st op

/-- C2 counterexample: on the two-node scenario graph, removing the edge
start→guide succeeds (`applied_ops = 1`) but `validate_graph` returns no
errors at all on the result — in particular it does NOT report guide as
unreachable, because nodes of type `userGuide` are themselves roots of the
reachability walk. -/
theorem remove_edge_guide_not_unreachable :
    (apply_operations cFid scenarioGraph [removeStartGuideOp]).1.applied_ops = 1 ∧
    validate_graph (apply_operations cFid scenarioGraph [removeStartGuideOp]).1.graph = [] ∧
    memKey (validate_graph (apply_operations cFid scenarioGraph [removeStartGuideOp]).1.graph)
      ("Unreachable nodes: [\x27guide\x27]") = false := by
  refine ⟨rfl, by decide, by decide⟩

/-- C2 (amended): the REMOVE_EDGE batch succeeds with `applied_ops = 1`
and no operation errors, and `validate_graph` on the resulting graph
reports no errors (guide stays reachable as a `userGuide` root). -/
theorem remove_edge_scenario_b_amended :
    (apply_operations cFid scenarioGraph [removeStartGuideOp]).1.applied_ops = 1 ∧
    (apply_operations cFid scenarioGraph [removeStartGuideOp]).1.errors = [] ∧
    validate_graph (apply_operations cFid scenarioGraph [removeStartGuideOp]).1.graph = [] := by
  refine ⟨rfl, rfl, by decide⟩

/-- C3 (code bug evidence): a successful `UPDATE_INPUTS` writes through
the aliased node object of the INPUT graph: before the call the input
graph's node `n` holds input value 1, the call succeeds, and afterwards
the same input graph observably holds value 2 (the engine deep-copies
nothing despite its own comment). -/
theorem update_inputs_mutates_input_graph :
    firstInputValueInt mutGraph = some 1 ∧
    (apply_operations cFid mutGraph [mutOp]).1.applied_ops = 1 ∧
    (apply_operations cFid mutGraph [mutOp]).1.errors = [] ∧
    firstInputValueInt (apply_operations cFid mutGraph [mutOp]).2 = some 2 :=
  ⟨rfl, rfl, rfl, rfl⟩

/-- C5: an `UPDATE_INPUTS` on an existing node with a non-empty update
list containing at least one unknown key emits exactly one `INVALID_OP`
error per unknown key (in update order, referencing the key), leaves the
whole engine state otherwise untouched — node payloads unchanged, no
partial writes — and does not increment `applied_ops`. -/
theorem update_inputs_unknown_key_atomic (f : Nat → String) (st : ApplyState)
    (oid : Option String) (tid : String) (updates : List InputValueUpdate)
    (hmem : assocMem st.work tid = true)
    (hne : updates.isEmpty = false)
    (hmiss : (missingKeysOf (nodeOfWork st tid) updates).isEmpty = false) :
    applyOp f st ⟨oid, some tid, OpParams.updateInputs updates⟩ =
      { st with errors := st.errors ++ (missingKeysOf (nodeOfWork st tid) updates).map (fun k => ⟨ErrCode.INVALID_OP, "Input key not found: " ++ k, oid, some tid⟩) } := by
  simp [applyOp, hmem, hne, hmiss]

/-- C5 witness: Scenario E. Node `n` has inputs `[{key:"a",value:1}]`;
updating key `"b"` yields exactly one `INVALID_OP` error referencing `b`,
with state otherwise unchanged and `applied_ops` not incremented. -/
theorem update_inputs_unknown_key_atomic_witness :
    applyOp cFid exState ⟨none, some "n", OpParams.updateInputs [⟨"b", JVal.i 2⟩]⟩ =
      { exState with errors :=
          [⟨ErrCode.INVALID_OP, "Input key not found: b", none, some "n"⟩] } := by
  have h := update_inputs_unknown_key_atomic cFid exState none "n" [⟨"b", JVal.i 2⟩]
    rfl rfl rfl
  exact h

/-- Result-graph node ids are drawn from the input graph's ids (or are the
empty id of the out-of-range default, which cannot collide with a
non-empty id). -/
theorem result_node_ids (g : LogicalGraph) :
    ∀ x ∈ (initWork g.nodes).map (fun kv => (resolveRef g.nodes kv.2).id),
      x ∈ nodeIds g ∨ x = "" := by
  intro x hx
  rcases List.mem_map.mp hx with ⟨kv, hkv, rfl⟩
  rcases initWork_ref_orig g.nodes kv hkv with ⟨i, hi⟩
  rw [hi]
  rcases getD_mem_or_default g.nodes i defaultNode with h | h
  · left
    simp only [resolveRef]
    exact List.mem_map_of_mem _ h
  · right
    simp only [resolveRef]
    rw [h]
    rfl

/-- Evaluation of a one-`ADD_EDGE` batch with truthy endpoints. -/
theorem apply_single_addEdge (f : Nat → String) (g : LogicalGraph)
    (oid tgt : Option String) (s t : String) (sh th : Option String)
    (hs : s ≠ "") (ht : t ≠ "") :
    apply_operations f g [⟨oid, tgt, OpParams.addEdge s t sh th⟩] =
      (⟨⟨(initWork g.nodes).map (fun kv => resolveRef g.nodes kv.2),
         (if memKey (initEdges g.edges) (s, t, sh, th) then initEdges g.edges
          else initEdges g.edges ++ [(s, t, sh, th)]).map edgeOfKey⟩,
        [], 1⟩,
       ⟨g.nodes, g.edges⟩) := by
  simp [apply_operations, applyOp, hs, ht]

/-- C10: `ADD_EDGE` performs no node-existence check: for every graph, an
`ADD_EDGE` whose source and target are non-empty is inserted and counted
in `applied_ops` with no error entry, even when the referenced source does
not exist in the graph — in which case the dangling reference is only
reported by `validate_graph` as an invalid edge. -/
theorem add_edge_unchecked_dangling (f : Nat → String) (g : LogicalGraph)
    (oid tgt : Option String) (s t : String) (sh th : Option String)
    (hs : s ≠ "") (ht : t ≠ "") :
    (apply_operations f g [⟨oid, tgt, OpParams.addEdge s t sh th⟩]).1.applied_ops = 1 ∧
    (apply_operations f g [⟨oid, tgt, OpParams.addEdge s t sh th⟩]).1.errors = [] ∧
    (⟨s, t, sh, th⟩ : EdgeInstance) ∈
      (apply_operations f g [⟨oid, tgt, OpParams.addEdge s t sh th⟩]).1.graph.edges ∧
    ((memKey (nodeIds g) s = false ∨ memKey (nodeIds g) t = false) →
      ("Edge invalid: " ++ s ++ " -> " ++ t) ∈
        validate_graph (apply_operations f g [⟨oid, tgt, OpParams.addEdge s t sh th⟩]).1.graph) := by
  rw [apply_single_addEdge f g oid tgt s t sh th hs ht]
  have hedge : (⟨s, t, sh, th⟩ : EdgeInstance) ∈
      (if memKey (initEdges g.edges) (s, t, sh, th) then initEdges g.edges
       else initEdges g.edges ++ [(s, t, sh, th)]).map edgeOfKey := by
    by_cases hk : memKey (initEdges g.edges) (s, t, sh, th) = true
    · rw [if_pos hk]
      exact List.mem_map.mpr ⟨(s, t, sh, th), (memKey_iff _ _).mp hk, rfl⟩
    · rw [if_neg hk]
      refine List.mem_map.mpr ⟨(s, t, sh, th), ?_, rfl⟩
      exact List.mem_append_right _ (List.mem_singleton.mpr rfl)
  refine ⟨rfl, rfl, hedge, ?_⟩
  intro hdang
  have hids : ∀ x, x ∈ nodeIds ⟨(initWork g.nodes).map (fun kv => resolveRef g.nodes kv.2),
      (if memKey (initEdges g.edges) (s, t, sh, th) then initEdges g.edges
       else initEdges g.edges ++ [(s, t, sh, th)]).map edgeOfKey⟩ → x ∈ nodeIds g ∨ x = "" := by
    intro x hx
    apply result_node_ids g
    simpa [nodeIds, List.map_map] using hx
  have hpred : (¬ memKey (nodeIds ⟨(initWork g.nodes).map (fun kv => resolveRef g.nodes kv.2),
      (if memKey (initEdges g.edges) (s, t, sh, th) then initEdges g.edges
       else initEdges g.edges ++ [(s, t, sh, th)]).map edgeOfKey⟩) s ∨
      ¬ memKey (nodeIds ⟨(initWork g.nodes).map (fun kv => resolveRef g.nodes kv.2),
      (if memKey (initEdges g.edges) (s, t, sh, th) then initEdges g.edges
       else initEdges g.edges ++ [(s, t, sh, th)]).map edgeOfKey⟩) t) := by
    rcases hdang with hds | hdt
    · left
      intro hcon
      rcases hids s ((memKey_iff _ _).mp hcon) with h | h
      · rw [(memKey_iff _ _).mpr h] at hds
        exact Bool.true_eq_false.mp hds
      · exact hs h
    · right
      intro hcon
      rcases hids t ((memKey_iff _ _).mp hcon) with h | h
      · rw [(memKey_iff _ _).mpr h] at hdt
        exact Bool.true_eq_false.mp hdt
      · exact ht h
  have hmemC : ("Edge invalid: " ++ s ++ " -> " ++ t) ∈
      edgeRefErrors ⟨(initWork g.nodes).map (fun kv => resolveRef g.nodes kv.2),
        (if memKey (initEdges g.edges) (s, t, sh, th) then initEdges g.edges
         else initEdges g.edges ++ [(s, t, sh, th)]).map edgeOfKey⟩ := by
    unfold edgeRefErrors
    refine List.mem_map.mpr ⟨⟨s, t, sh, th⟩, ?_, rfl⟩
    refine List.mem_filter.mpr ⟨hedge, ?_⟩
    simpa using hpred
  simp only [validate_graph, List.mem_append]
  exact Or.inl (Or.inl (Or.inl (Or.inr hmemC)))

/-- C10 witness: on the empty graph, `ADD_EDGE x→y` is applied and
counted with no error although neither node exists, and `validate_graph`
reports the dangling edge. -/
theorem add_edge_unchecked_dangling_witness :
    (apply_operations cFid emptyGraph [⟨none, none, OpParams.addEdge "x" "y" none none⟩]).1.applied_ops = 1 ∧
    (apply_operations cFid emptyGraph [⟨none, none, OpParams.addEdge "x" "y" none none⟩]).1.errors = [] ∧
    (⟨"x", "y", none, none⟩ : EdgeInstance) ∈
      (apply_operations cFid emptyGraph [⟨none, none, OpParams.addEdge "x" "y" none none⟩]).1.graph.edges ∧
    "Edge invalid: x -> y" ∈
      validate_graph (apply_operations cFid emptyGraph
        [⟨none, none, OpParams.addEdge "x" "y" none none⟩]).1.graph := by
  have h := add_edge_unchecked_dangling cFid emptyGraph none none "x" "y" none none
    (by decide) (by decide)
  exact ⟨h.1, h.2.1, h.2.2.1, h.2.2.2 (Or.inl (by decide))⟩


/-!
Part 2: chat-side embedding — tool-use policy
(`src/nexus/core/policies/tool_use_policy.py`), reviewer message builders
(`src/nexus/core/prompts/chat_message.py`), and the conversation state
machine of `ChatAgent` (`src/nexus/agents/chat.py`), with the model, tool
executor and reviewer as round-indexed oracles.

Python `str.strip()`/`str.lower()` are modelled over char lists (ASCII
case folding and ASCII whitespace; every keyword the policy matches is
ASCII or Chinese, where the two agree).
-/

/-- ASCII whitespace (Python `str.strip` default set, ASCII fragment). -/
def isSpaceChar (c : Char) : Bool := c = ' ' || c = '\t' || c = '\n' || c = '\r'

/-- Python `str.strip()`. -/
def pyStrip (s : String) : String :=
  ⟨((s.data.dropWhile isSpaceChar).reverse.dropWhile isSpaceChar).reverse⟩

/-- Python `str.lower()` (ASCII case folding). -/
def pyLower (s : String) : String := ⟨s.data.map Char.toLower⟩

def startsWithChars : List Char → List Char → Bool
  | [], _ => true
  | _ :: _, [] => false
  | a :: as, b :: bs => a = b && startsWithChars as bs

def isSubChars (needle : List Char) : List Char → Bool
  | [] => needle.isEmpty
  | c :: rest => startsWithChars needle (c :: rest) || isSubChars needle rest

/-- Python `needle in hay` on strings (contiguous substring). -/
def strContains (hay needle : String) : Bool := isSubChars needle.data hay.data

/-- `_normalize_text`: `str(value or "").strip().lower()`. -/
def normalizeText (s : String) : String := pyLower (pyStrip s)

/-- One message of the conversation transcript. `toolCalls` holds the
names of the tool-call requests of an assistant message; `pendingReview`
models the `REVIEW_PENDING_ANSWER_FLAG` marker in `additional_kwargs`. -/
inductive CMsg where
  | system (content : String) : CMsg
  | user (content : String) : CMsg
  | ai (content : String) (toolCalls : List String) (pendingReview : Bool) : CMsg
  | tool (name : String) (content : String) : CMsg
deriving DecidableEq, Repr

def CMsg.content : CMsg → String
  | .system c => c
  | .user c => c
  | .ai c _ _ => c
  | .tool _ c => c

def isToolMsg : CMsg → Bool
  | .tool _ _ => true
  | _ => false

/-- `ChatRequestContext` (only its `user_prompt` reaches the policy). -/
structure ChatRequestContext where
  user_prompt : String
deriving DecidableEq, Repr

def MAX_TOOL_CALLS_PER_QUESTION : Nat := 3

def NO_NEW_EVIDENCE_STOP_STREAK : Nat := 2

def MAX_ANSWER_SUFFICIENCY_REVIEW_ROUNDS : Nat := 3

def WORKFLOW_GRAPH_CONTEXT_KEYWORDS : List String :=
  ["当前工作流", "这个工作流", "流程图", "编排图", "节点", "连线", "边", "拓扑",
   "node", "nodes", "edge", "edges", "workflow", "graph",
   "mcp", "mcp工具", "mcp 工具", "toolset"]

def TOOL_KEYWORDS : List (String × List String) :=
  [("get_workflow_meta", ["名称", "描述", "简介", "用途", "干啥", "做什么"]),
   ("get_full_workflow_graph", ["完整", "全量", "全部", "流程", "连线", "拓扑", "上下游"]),
   ("find_workflow_graph_nodes", ["查找", "搜索", "定位", "节点"]),
   ("get_workflow_node_info", ["节点详情", "节点信息", "某个节点", "node"]),
   ("get_toolset_tools", ["toolset", "工具集合", "工具清单", "mcp"]),
   ("get_tools_node_mcp_tools", ["tools 节点", "mcp", "挂载", "下挂", "工具"]),
   ("get_current_time", ["当前时间", "现在时间", "几点", "日期", "时间", "format", "格式", "时区", "timezone"]),
   ("get_current_timestamp", ["时间戳", "timestamp", "unix", "毫秒", "秒", "时区", "timezone"])]

/-- `build_tool_call_signature`: the stripped tool name. -/
def buildToolCallSignature (tool_name : String) : String := pyStrip tool_name

/-- `collect_tool_call_signatures`: stripped, non-empty tool-call names of
assistant messages, in order. -/
def collectToolCallSignatures (messages : List CMsg) : List String :=
  messages.foldl (fun acc m =>
    match m with
    | .ai _ toolCalls _ => acc ++ ((toolCalls.map pyStrip).filter (fun n => n ≠ ""))
    | _ => acc) []

/-- `get_tool_message_count`. -/
def getToolMessageCount (messages : List CMsg) : Nat := messages.countP isToolMsg

/-- `_no_new_evidence_streak`: trailing run of tool results that are empty
or byte-identical to an earlier result (`seen` set, reset on evidence). -/
def noNewEvidenceStreak (messages : List CMsg) : Nat :=
  (messages.foldl (fun (acc : List String × Nat) m =>
    match m with
    | .tool _ content =>
        let normalized := pyStrip content
        if normalized = "" ∨ memKey acc.1 normalized then (acc.1, acc.2 + 1)
        else (acc.1 ++ [normalized], 0)
    | _ => acc) ([], 0)).2

/-- `requires_workflow_graph_tools`. -/
def requiresWorkflowGraphTools (user_prompt : String) : Bool :=
  let prompt := normalizeText user_prompt
  if prompt = "" then false
  else WORKFLOW_GRAPH_CONTEXT_KEYWORDS.any (fun kw => strContains prompt kw)

/-- `resolve_tool_choice` of `tool_use_policy.py`. -/
def resolve_tool_choice (context : ChatRequestContext) (messages : List CMsg) : String :=
  if getToolMessageCount messages ≥ MAX_TOOL_CALLS_PER_QUESTION then "none"
  else if noNewEvidenceStreak messages ≥ NO_NEW_EVIDENCE_STOP_STREAK then "none"
  else if messages.any isToolMsg then "auto"
  else if requiresWorkflowGraphTools context.user_prompt then "required"
  else "auto"

/-- A registered tool (closed `{name, description}` interface). -/
structure ChatTool where
  name : String
  description : String
deriving DecidableEq, Repr

/-- `_score_tool_relevance`. -/
def scoreToolRelevance (tool : ChatTool) (query_text : String) : Nat :=
  if query_text = "" then 0
  else
    let tool_description := normalizeText tool.description
    let s1 := if tool.name ≠ "" ∧ strContains query_text (pyLower tool.name) then 10 else 0
    let kws := (assocGet TOOL_KEYWORDS tool.name).getD []
    let s2 := 3 * (kws.filter (fun kw => strContains query_text (normalizeText kw))).length
    let fallbacks := ["工作流", "节点", "工具", "mcp", "描述", "名称", "连线"]
    let s3 := (fallbacks.filter (fun tok =>
      strContains query_text (normalizeText tok) ∧
      strContains tool_description (normalizeText tok))).length
    s1 + s2 + s3

/-- Python `sort(key=(-score, index))` order on `(score, index)` pairs. -/
def scoredLe (a b : Nat × Nat) : Bool := b.1 < a.1 || (a.1 = b.1 && a.2 ≤ b.2)

def insertScored (x : (Nat × Nat) × ChatTool) :
    List ((Nat × Nat) × ChatTool) → List ((Nat × Nat) × ChatTool)
  | [] => [x]
  | y :: rest => if scoredLe x.1 y.1 then x :: y :: rest else y :: insertScored x rest

/-- Sort by descending score, ties by original index (total order on
distinct `(score, index)` keys, so it agrees with Python's stable sort). -/
def sortScored (l : List ((Nat × Nat) × ChatTool)) : List ((Nat × Nat) × ChatTool) :=
  l.foldr insertScored []

/-- `select_tool_candidates` of `tool_use_policy.py`. -/
def select_tool_candidates (context : ChatRequestContext) (messages : List CMsg)
    (tools : List ChatTool) (focus_text : String) : List ChatTool :=
  if tools.isEmpty then []
  else
    let query_text := normalizeText (context.user_prompt ++ " " ++ focus_text)
    let scored := (tools.enum).map (fun it => ((scoreToolRelevance it.2 query_text, it.1), it.2))
    let candidate_tools := (sortScored scored).map (fun p => p.2)
    let called_signatures := collectToolCallSignatures messages
    let filtered_tools := candidate_tools.filter
      (fun tool => ¬ memKey called_signatures (buildToolCallSignature tool.name))
    if filtered_tools.isEmpty then candidate_tools else filtered_tools

/-- `ChatAgent._filter_unused_tools`: drop tools whose (stripped,
non-empty) name already produced a tool-result message. -/
def filterUnusedTools (messages : List CMsg) (tools : List ChatTool) : List ChatTool :=
  let used := messages.foldl (fun acc m =>
    match m with
    | .tool name _ => if pyStrip name = "" then acc else acc ++ [pyStrip name]
    | _ => acc) []
  tools.filter (fun tool => ¬ memKey used (pyStrip tool.name))

mutual

/-- `json.dumps` on a `JVal` (string escaping inside values is not
modelled; no claim inspects these rendered payloads). -/
def jsonDumps : JVal → String
  | .null => "null"
  | .s v => "\"" ++ v ++ "\""
  | .i v => toString v
  | .b true => "true"
  | .b false => "false"
  | .arr xs => "[" ++ jsonDumpsArr xs ++ "]"
  | .obj kvs => "\x7b" ++ jsonDumpsObj kvs ++ "\x7d"

def jsonDumpsArr : List JVal → String
  | [] => ""
  | [x] => jsonDumps x
  | x :: y :: rest => jsonDumps x ++ ", " ++ jsonDumpsArr (y :: rest)

def jsonDumpsObj : List (String × JVal) → String
  | [] => ""
  | [(k, v)] => "\"" ++ k ++ "\": " ++ jsonDumps v
  | (k, v) :: y :: rest => "\"" ++ k ++ "\": " ++ jsonDumps v ++ ", " ++ jsonDumpsObj (y :: rest)

end

/-- `build_review_guidance_message` of `chat_message.py`. -/
def buildReviewGuidanceMessage (missing_info : List String)
    (suggested_tool_name : String) (suggested_tool_args : List (String × JVal)) : String :=
  let missing_lines := String.intercalate "\n"
    ((missing_info.filter (fun item => pyStrip item ≠ "")).map (fun item => "- " ++ item))
  let suggested_tool_args_json := jsonDumps (JVal.obj suggested_tool_args)
  let guidance_lines :=
    ["你上一版回答尚未满足用户问题，请先补齐证据再回答。",
     "若可用工具无法补齐关键证据，请明确告知用户缺失信息并请求补充。"]
  let guidance_lines :=
    if missing_lines ≠ "" then guidance_lines ++ ["当前缺失信息：", missing_lines]
    else guidance_lines
  let guidance_lines :=
    if suggested_tool_name ≠ "" then
      guidance_lines ++ ["优先尝试工具：" ++ suggested_tool_name ++ "，参数：" ++ suggested_tool_args_json]
    else guidance_lines
  String.intercalate "\n" guidance_lines

/-- `build_need_user_input_message` of `chat_message.py`. -/
def buildNeedUserInputMessage (missing_info : List String) (user_guidance : String) : String :=
  if user_guidance ≠ "" then user_guidance
  else
    let joined := String.intercalate "；"
      ((missing_info.filter (fun item => pyStrip item ≠ "")).map pyStrip)
    let missing_text := if joined = "" then "关键上下文信息" else joined
    "当前我还无法给出可靠结论。" ++ ("缺少：" ++ missing_text ++ "。") ++
      "请补充这些信息后我再继续分析。"


/-!
Part 2b: the conversation state machine of `ChatAgent._build_app`
(generate → execute-tools → review loop) with oracle-driven model, tool
executor and reviewer.
-/

/-- `AnswerSufficiencyReviewResult` raw fields (before pydantic
normalization). -/
structure ReviewVerdict where
  status : String
  missing_info : List String
  suggested_tool_name : String
  suggested_tool_args : List (String × JVal)
  user_guidance : String

/-- The pydantic field validators: strip string fields, keep only
non-empty stripped `missing_info` items. -/
def normalizeVerdict (v : ReviewVerdict) : ReviewVerdict :=
  { status := v.status,
    missing_info := (v.missing_info.map pyStrip).filter (fun s => s ≠ ""),
    suggested_tool_name := pyStrip v.suggested_tool_name,
    suggested_tool_args := v.suggested_tool_args,
    user_guidance := pyStrip v.user_guidance }

/-- The model's `status` literal set; anything else fails validation. -/
def allowedReviewStatuses : List String := ["sufficient", "need_more_tools", "need_user_input"]

/-- The fallback verdict built in the `except` handler: a reviewer
failure defaults to `need_user_input` with empty guidance. -/
def fallbackVerdict : ReviewVerdict := ⟨"need_user_input", [], "", [], ""⟩

/-- The fields of `ChatAgent._build_review_payload` the step consumes. -/
structure ReviewPayload where
  tool_results : List (String × String)
  candidate_tools : List (String × String)
  used_tool_call_count : Nat
  remaining_tool_call_count : Nat

/-- `ChatAgent._build_review_payload`. -/
def buildReviewPayload (context : ChatRequestContext) (messages : List CMsg)
    (review_focus_text : String) (tools : List ChatTool) : ReviewPayload :=
  let tool_results := messages.foldl (fun acc m =>
    match m with
    | .tool name content =>
        if pyStrip content = "" then acc else acc ++ [(name, pyStrip content)]
    | _ => acc) []
  let review_tool_candidates :=
    filterUnusedTools messages (select_tool_candidates context messages tools review_focus_text)
  let candidate_tool_summaries := review_tool_candidates.map (fun t => (t.name, t.description))
  let used_tool_calls := getToolMessageCount messages
  ⟨tool_results, candidate_tool_summaries, used_tool_calls,
    MAX_TOOL_CALLS_PER_QUESTION - used_tool_calls⟩

/-- `candidate_tool_names`: stripped non-empty names of the payload's
candidate-tool summaries. -/
def candidateToolNames (payload : ReviewPayload) : List String :=
  (payload.candidate_tools.map (fun p => pyStrip p.1)).filter (fun n => n ≠ "")

/-- `ChatState` of `chat.py` (LangGraph shared state). -/
structure ChatLoopState where
  messages : List CMsg
  review_guidance : String
  force_tool_call : Bool
  pending_answer_requires_review : Bool
  sufficiency_review_action : String
  sufficiency_review_count : Nat
deriving DecidableEq, Repr

/-- `ChatAgent._is_review_pending_answer_message`. -/
def isReviewPendingAnswerMessage : CMsg → Bool
  | .ai _ toolCalls pending => toolCalls.isEmpty && pending
  | _ => false

/-- The post-state of one review-node execution (`add_messages` appends
`appended`; the remaining fields are the node's returned values, carrying
the old value where the node leaves a field out of its update). -/
structure ReviewStepResult where
  appended : List CMsg
  review_guidance : String
  force_tool_call : Bool
  pending_answer_requires_review : Bool
  sufficiency_review_action : String
  sufficiency_review_count : Nat
  consulted : Bool
deriving DecidableEq, Repr

/-- The three verdict branches of the review node, on the effective
(post-downgrade) status: release the candidate, loop back for more tools,
or ask the user. Always a consulting execution (`consulted = true`) that
increments the round counter. -/
def reviewDecision (pending_content : String) (review_result : ReviewVerdict)
    (status3 : String) (suggested_tool_name : String) (guidance0 : String)
    (review_count : Nat) : ReviewStepResult :=
  if status3 = "sufficient" then
    ⟨[CMsg.ai pending_content [] false], "", false, false, "answer", review_count + 1, true⟩
  else if status3 = "need_more_tools" then
    let review_guidance := buildReviewGuidanceMessage review_result.missing_info
      suggested_tool_name review_result.suggested_tool_args
    ⟨[], review_guidance, true, false, "call_tool", review_count + 1, true⟩
  else
    let user_guidance := buildNeedUserInputMessage review_result.missing_info guidance0
    ⟨[CMsg.ai user_guidance [] false], "", false, false, "ask_user", review_count + 1, true⟩

/-- The validated verdict the review node works with: the parsed
structured output when the call succeeds and validation passes, else the
fail-closed fallback. -/
def effectiveVerdict (reviewerOutcome : Option ReviewVerdict) : ReviewVerdict :=
  match reviewerOutcome with
  | some v => if memKey allowedReviewStatuses v.status then normalizeVerdict v
              else fallbackVerdict
  | none => fallbackVerdict

/-- The review node's main path (reviewer consulted): downgrade rules
(a) no remaining budget, (b) no candidate tools, (c) suggested tool not a
candidate — each coercing `need_more_tools` to `need_user_input` — then
the three-way decision. -/
def reviewNormalBranch (context : ChatRequestContext) (tools : List ChatTool)
    (reviewerOutcome : Option ReviewVerdict) (st : ChatLoopState)
    (pending_answer : CMsg) : ReviewStepResult :=
  let payload := buildReviewPayload context st.messages st.review_guidance tools
  let review_result := effectiveVerdict reviewerOutcome
  let names := candidateToolNames payload
  let status1 :=
    if review_result.status = "need_more_tools" ∧ payload.remaining_tool_call_count = 0
    then "need_user_input" else review_result.status
  let status2 :=
    if status1 = "need_more_tools" ∧ payload.candidate_tools.isEmpty
    then "need_user_input" else status1
  let suggested_tool_name := pyStrip review_result.suggested_tool_name
  let caseC := status2 = "need_more_tools" ∧ ¬ memKey names suggested_tool_name
  let status3 := if caseC then "need_user_input" else status2
  let guidance0 :=
    if caseC ∧ pyStrip review_result.user_guidance = ""
    then buildNeedUserInputMessage [] "" else review_result.user_guidance
  reviewDecision pending_answer.content review_result status3 suggested_tool_name
    guidance0 st.sufficiency_review_count

/-- `ChatAgent._run_review_answer_sufficiency`. `reviewerOutcome` is the
structured-output model call: `none` when the call raises or the result
fails validation (unparseable / invalid status literal). `consulted` is
true exactly when the reviewer model call is attempted. -/
def runReviewAnswerSufficiency (context : ChatRequestContext) (tools : List ChatTool)
    (reviewerOutcome : Option ReviewVerdict) (st : ChatLoopState) : ReviewStepResult :=
  let review_count := st.sufficiency_review_count
  if review_count ≥ MAX_ANSWER_SUFFICIENCY_REVIEW_ROUNDS then
    let user_guidance := buildNeedUserInputMessage [] ""
    ⟨[CMsg.ai user_guidance [] false], "", false, false, "ask_user", review_count, false⟩
  else if st.pending_answer_requires_review = false then
    ⟨[], st.review_guidance, st.force_tool_call, false, "answer", review_count, false⟩
  else
    match (st.messages.reverse).find? isReviewPendingAnswerMessage with
    | none => ⟨[], st.review_guidance, st.force_tool_call, false, "answer", review_count, false⟩
    | some pending_answer =>
        reviewNormalBranch context tools reviewerOutcome st pending_answer

/-- One model response of a generate round: visible content plus the
names of its tool-call requests. -/
structure GenOut where
  content : String
  toolCalls : List String
deriving DecidableEq, Repr

/-- `ensure_tool_call_ids`: drop tool calls without a name; if every call
is nameless the message is returned unchanged (original calls kept). -/
def effectiveToolCalls (tc : List String) : List String :=
  let named := tc.filter (fun n => n ≠ "")
  if named.isEmpty then tc else named

/-- The tool choice `_run_llm_answer` binds: `resolve_tool_choice`, then
the budget override to `none`, then the `force_tool_call` upgrade to
`required` (only when not `none`). -/
def computeToolChoice (context : ChatRequestContext) (st : ChatLoopState) : String :=
  let tool_choice := resolve_tool_choice context st.messages
  let tool_choice :=
    if getToolMessageCount st.messages ≥ MAX_TOOL_CALLS_PER_QUESTION then "none"
    else tool_choice
  if st.force_tool_call ∧ tool_choice ≠ "none" then "required" else tool_choice

/-- `ChatAgent._run_llm_answer` (state effects): append the generated
assistant message, clear one-shot `review_guidance`/`force_tool_call`,
tag a text answer as pending review when the turn required tool-backed
evidence. -/
def runLlmAnswer (context : ChatRequestContext) (st : ChatLoopState) (out : GenOut) :
    ChatLoopState :=
  let calls := effectiveToolCalls out.toolCalls
  let should_review :=
    requiresWorkflowGraphTools context.user_prompt || st.messages.any isToolMsg
  let pending := calls.isEmpty && should_review
  { st with
    messages := st.messages ++ [CMsg.ai out.content calls pending],
    review_guidance := "",
    force_tool_call := false,
    pending_answer_requires_review := pending }

inductive Phase where
  | generate | tools | review | done
deriving DecidableEq, Repr

/-- `route_after_generation`: tool calls → tools node; pending review →
review node; else end. -/
def routeAfterGeneration (st : ChatLoopState) : Phase :=
  let isToolCallMsg :=
    match st.messages.getLast? with
    | some (.ai _ tc _) => !tc.isEmpty
    | _ => false
  if isToolCallMsg then Phase.tools
  else if st.pending_answer_requires_review then Phase.review
  else Phase.done

/-- The loop's full run state: LangGraph state, current node, number of
reviewer-model consultations, and oracle round counters. -/
structure RunState where
  st : ChatLoopState
  phase : Phase
  consults : Nat
  genRound : Nat
  toolRound : Nat
deriving Repr

/-- The three boundary capabilities as round-indexed oracles: the chat
model (given the bound tool choice), the tool executor (round, call
index, tool name), and the structured-output reviewer. -/
structure ChatOracle where
  gen : Nat → String → GenOut
  toolResult : Nat → Nat → String → String
  review : Nat → Option ReviewVerdict

/-- §6 model-capability contract: a model bound with tool choice `none`
issues no tool calls. -/
def OracleRespectsToolChoice (o : ChatOracle) : Prop :=
  ∀ n, effectiveToolCalls (o.gen n "none").toolCalls = []

/-- Each model response carries at most one tool call. -/
def OracleSingleToolCall (o : ChatOracle) : Prop :=
  ∀ n c, (effectiveToolCalls (o.gen n c).toolCalls).length ≤ 1

/-- `ToolNode`: execute every requested call of the last assistant
message, appending one tool-result message per call, in request order. -/
def runToolsNode (o : ChatOracle) (round : Nat) (st : ChatLoopState) : ChatLoopState :=
  let calls :=
    match st.messages.getLast? with
    | some (.ai _ tc _) => tc
    | _ => []
  { st with messages :=
      st.messages ++ (calls.enum).map (fun it => CMsg.tool it.2 (o.toolResult round it.1 it.2)) }

/-- One node execution plus routing of the compiled graph. -/
def stepRun (context : ChatRequestContext) (tools : List ChatTool) (o : ChatOracle)
    (rs : RunState) : RunState :=
  match rs.phase with
  | .done => rs
  | .generate =>
      let choice := computeToolChoice context rs.st
      let out := o.gen rs.genRound choice
      let st2 := runLlmAnswer context rs.st out
      { rs with st := st2, phase := routeAfterGeneration st2, genRound := rs.genRound + 1 }
  | .tools =>
      let st2 := runToolsNode o rs.toolRound rs.st
      { rs with st := st2, phase := Phase.generate, toolRound := rs.toolRound + 1 }
  | .review =>
      let res := runReviewAnswerSufficiency context tools (o.review rs.consults) rs.st
      let st2 : ChatLoopState :=
        ⟨rs.st.messages ++ res.appended, res.review_guidance, res.force_tool_call,
          res.pending_answer_requires_review, res.sufficiency_review_action,
          res.sufficiency_review_count⟩
      { rs with
        st := st2,
        phase := if res.sufficiency_review_action = "call_tool" then Phase.generate
          else Phase.done,
        consults := rs.consults + (if res.consulted then 1 else 0) }

/-- Run the compiled graph for at most `fuel` node executions. -/
def runLoop (context : ChatRequestContext) (tools : List ChatTool) (o : ChatOracle) :
    Nat → RunState → RunState
  | 0, rs => rs
  | fuel + 1, rs =>
      if rs.phase = Phase.done then rs
      else runLoop context tools o fuel (stepRun context tools o rs)

/-- The initial state `achat` builds: system prompt, session history,
then the user prompt; phase entry point is the generate node. -/
def initRunState (sysPrompt : String) (history : List CMsg)
    (context : ChatRequestContext) : RunState :=
  ⟨⟨[CMsg.system sysPrompt] ++ history ++ [CMsg.user context.user_prompt],
    "", false, false, "answer", 0⟩, Phase.generate, 0, 0, 0⟩



/-!
Part 2c: supporting lemmas about the conversation loop.
-/

theorem runLoop_done (context : ChatRequestContext) (tools : List ChatTool) (o : ChatOracle)
    (fuel : Nat) (rs : RunState) (h : rs.phase = Phase.done) :
    runLoop context tools o fuel rs = rs := by
  cases fuel with
  | zero => rfl
  | succ n => simp [runLoop, h]

theorem count_runLlmAnswer (context : ChatRequestContext) (st : ChatLoopState) (out : GenOut) :
    getToolMessageCount (runLlmAnswer context st out).messages =
      getToolMessageCount st.messages := by
  simp [runLlmAnswer, getToolMessageCount, List.countP_append, isToolMsg]

theorem reviewCount_runLlmAnswer (context : ChatRequestContext) (st : ChatLoopState)
    (out : GenOut) :
    (runLlmAnswer context st out).sufficiency_review_count = st.sufficiency_review_count := by
  simp [runLlmAnswer]

theorem count_runToolsNode (o : ChatOracle) (round : Nat) (st : ChatLoopState) :
    getToolMessageCount (runToolsNode o round st).messages =
      getToolMessageCount st.messages +
      (match st.messages.getLast? with
       | some (.ai _ tc _) => tc
       | _ => []).length := by
  simp only [runToolsNode, getToolMessageCount, List.countP_append]
  congr 1
  generalize (match st.messages.getLast? with
       | some (.ai _ tc _) => tc
       | _ => []) = calls
  have hall : List.countP isToolMsg
      ((calls.enum).map (fun it => CMsg.tool it.2 (o.toolResult round it.1 it.2))) =
      ((calls.enum).map (fun it => CMsg.tool it.2 (o.toolResult round it.1 it.2))).length := by
    rw [List.countP_eq_length]
    intro a ha
    rcases List.mem_map.mp ha with ⟨it, _, rfl⟩
    rfl
  rw [hall]
  simp

theorem reviewCount_runToolsNode (o : ChatOracle) (round : Nat) (st : ChatLoopState) :
    (runToolsNode o round st).sufficiency_review_count = st.sufficiency_review_count := by
  simp [runToolsNode]

/-- The budget override: with three or more tool results in history the
generate round binds tool choice `none`. -/
theorem computeToolChoice_none (context : ChatRequestContext) (st : ChatLoopState)
    (h : getToolMessageCount st.messages ≥ MAX_TOOL_CALLS_PER_QUESTION) :
    computeToolChoice context st = "none" := by
  simp [computeToolChoice, h]

theorem reviewDecision_shape (pending_content : String) (review_result : ReviewVerdict)
    (status3 suggested_tool_name guidance0 : String) (review_count : Nat) :
    ((reviewDecision pending_content review_result status3 suggested_tool_name guidance0
        review_count).appended = [] ∨
      ∃ c, (reviewDecision pending_content review_result status3 suggested_tool_name guidance0
        review_count).appended = [CMsg.ai c [] false]) ∧
    (reviewDecision pending_content review_result status3 suggested_tool_name guidance0
        review_count).consulted = true ∧
    (reviewDecision pending_content review_result status3 suggested_tool_name guidance0
        review_count).sufficiency_review_count = review_count + 1 := by
  unfold reviewDecision
  split
  · exact ⟨Or.inr ⟨_, rfl⟩, rfl, rfl⟩
  · split
    · exact ⟨Or.inl rfl, rfl, rfl⟩
    · exact ⟨Or.inr ⟨_, rfl⟩, rfl, rfl⟩

/-- The normal review path (below the ceiling, with a pending candidate)
delegates to `reviewNormalBranch`. -/
theorem review_normal_path (context : ChatRequestContext) (tools : List ChatTool)
    (outcome : Option ReviewVerdict) (st : ChatLoopState) (pa : CMsg)
    (hclg : ¬ st.sufficiency_review_count ≥ MAX_ANSWER_SUFFICIENCY_REVIEW_ROUNDS)
    (hp : ¬ st.pending_answer_requires_review = false)
    (hf : (st.messages.reverse).find? isReviewPendingAnswerMessage = some pa) :
    runReviewAnswerSufficiency context tools outcome st =
      reviewNormalBranch context tools outcome st pa := by
  simp only [runReviewAnswerSufficiency, if_neg hclg, if_neg hp, hf]

/-- Shape facts about the consulting branch. -/
theorem reviewNormalBranch_shape (context : ChatRequestContext) (tools : List ChatTool)
    (outcome : Option ReviewVerdict) (st : ChatLoopState) (pa : CMsg) :
    ((reviewNormalBranch context tools outcome st pa).appended = [] ∨
      ∃ c, (reviewNormalBranch context tools outcome st pa).appended =
        [CMsg.ai c [] false]) ∧
    (reviewNormalBranch context tools outcome st pa).consulted = true ∧
    (reviewNormalBranch context tools outcome st pa).sufficiency_review_count =
      st.sufficiency_review_count + 1 := by
  unfold reviewNormalBranch
  exact reviewDecision_shape _ _ _ _ _ _

/-- Shape facts about one review-node execution: it appends no tool
message; a consulting execution increments the round counter from a value
below the ceiling; a non-consulting one leaves it unchanged; only a
consulting execution can route back to generate. -/
theorem review_shape (context : ChatRequestContext) (tools : List ChatTool)
    (outcome : Option ReviewVerdict) (st : ChatLoopState) :
    ((runReviewAnswerSufficiency context tools outcome st).appended = [] ∨
      ∃ c, (runReviewAnswerSufficiency context tools outcome st).appended =
        [CMsg.ai c [] false]) ∧
    ((runReviewAnswerSufficiency context tools outcome st).consulted = true →
      (runReviewAnswerSufficiency context tools outcome st).sufficiency_review_count =
        st.sufficiency_review_count + 1 ∧
      st.sufficiency_review_count < MAX_ANSWER_SUFFICIENCY_REVIEW_ROUNDS) ∧
    ((runReviewAnswerSufficiency context tools outcome st).consulted = false →
      (runReviewAnswerSufficiency context tools outcome st).sufficiency_review_count =
        st.sufficiency_review_count) ∧
    ((runReviewAnswerSufficiency context tools outcome st).sufficiency_review_action =
        "call_tool" →
      (runReviewAnswerSufficiency context tools outcome st).consulted = true) := by
  by_cases hclg : st.sufficiency_review_count ≥ MAX_ANSWER_SUFFICIENCY_REVIEW_ROUNDS
  · simp [runReviewAnswerSufficiency, hclg]
  · by_cases hp : st.pending_answer_requires_review = false
    · simp [runReviewAnswerSufficiency, hclg, hp]
    · rcases hf : (st.messages.reverse).find? isReviewPendingAnswerMessage with _ | pa
      · simp [runReviewAnswerSufficiency, hclg, hp, hf]
      · have hlt : st.sufficiency_review_count < MAX_ANSWER_SUFFICIENCY_REVIEW_ROUNDS := by
          omega
        have heq := review_normal_path context tools outcome st pa hclg hp hf
        rw [heq]
        obtain ⟨h1, h2, h3⟩ := reviewNormalBranch_shape context tools outcome st pa
        refine ⟨h1, fun _ => ⟨h3, hlt⟩, fun hc => ?_, fun _ => h2⟩
        rw [h2] at hc
        exact absurd hc (by decide)

/-- Tool-message count is preserved by a review-node execution. -/
theorem count_after_review (context : ChatRequestContext) (tools : List ChatTool)
    (outcome : Option ReviewVerdict) (st : ChatLoopState) :
    getToolMessageCount (st.messages ++
        (runReviewAnswerSufficiency context tools outcome st).appended) =
      getToolMessageCount st.messages := by
  rcases (review_shape context tools outcome st).1 with h | ⟨c, h⟩ <;>
    simp [h, getToolMessageCount, List.countP_append, isToolMsg]

/-- The review ceiling: once the counter has reached the ceiling, the
node returns `ask_user` without consulting the reviewer and leaves the
counter unchanged. -/
theorem review_ceiling (context : ChatRequestContext) (tools : List ChatTool)
    (outcome : Option ReviewVerdict) (st : ChatLoopState)
    (h : st.sufficiency_review_count ≥ MAX_ANSWER_SUFFICIENCY_REVIEW_ROUNDS) :
    (runReviewAnswerSufficiency context tools outcome st).sufficiency_review_action =
        "ask_user" ∧
    (runReviewAnswerSufficiency context tools outcome st).consulted = false ∧
    (runReviewAnswerSufficiency context tools outcome st).sufficiency_review_count =
      st.sufficiency_review_count := by
  simp [runReviewAnswerSufficiency, h]


/-!
Part 2d: termination measure and loop invariants.
-/

/-- Termination measure: remaining tool budget, remaining review budget
(both capped), plus one for the generate phase. -/
def muRun (rs : RunState) : Nat :=
  2 * (MAX_TOOL_CALLS_PER_QUESTION -
        min (getToolMessageCount rs.st.messages) MAX_TOOL_CALLS_PER_QUESTION) +
  2 * (MAX_ANSWER_SUFFICIENCY_REVIEW_ROUNDS -
        min rs.st.sufficiency_review_count MAX_ANSWER_SUFFICIENCY_REVIEW_ROUNDS) +
  (match rs.phase with | Phase.generate => 1 | _ => 0)

theorem muRun_le (rs : RunState) : muRun rs ≤ 13 := by
  unfold muRun
  have h1 : MAX_TOOL_CALLS_PER_QUESTION -
      min (getToolMessageCount rs.st.messages) MAX_TOOL_CALLS_PER_QUESTION ≤ 3 :=
    Nat.sub_le _ _
  have h2 : MAX_ANSWER_SUFFICIENCY_REVIEW_ROUNDS -
      min rs.st.sufficiency_review_count MAX_ANSWER_SUFFICIENCY_REVIEW_ROUNDS ≤ 3 :=
    Nat.sub_le _ _
  cases rs.phase <;> simp <;> omega

/-- Invariant: the tools node is only ever entered right after a generate
round that actually requested tool calls, below the tool budget. -/
def TInv (rs : RunState) : Prop :=
  rs.phase = Phase.tools →
    ∃ c tc p, rs.st.messages.getLast? = some (CMsg.ai c tc p) ∧ tc ≠ [] ∧
      getToolMessageCount rs.st.messages < MAX_TOOL_CALLS_PER_QUESTION

theorem routeAfterGeneration_ne_generate (st : ChatLoopState) :
    routeAfterGeneration st ≠ Phase.generate := by
  intro h
  unfold routeAfterGeneration at h
  by_cases hp : st.pending_answer_requires_review = true
  · rcases hl : st.messages.getLast? with _ | m
    · rw [hl] at h
      simp [hp] at h
    · rcases m with ⟨c⟩ | ⟨c⟩ | ⟨c, tc, p⟩ | ⟨n, c⟩ <;> rw [hl] at h
      · simp [hp] at h
      · simp [hp] at h
      · by_cases htc : tc.isEmpty <;> simp [hp, htc] at h
      · simp [hp] at h
  · rcases hl : st.messages.getLast? with _ | m
    · rw [hl] at h
      simp [hp] at h
    · rcases m with ⟨c⟩ | ⟨c⟩ | ⟨c, tc, p⟩ | ⟨n, c⟩ <;> rw [hl] at h
      · simp [hp] at h
      · simp [hp] at h
      · by_cases htc : tc.isEmpty <;> simp [hp, htc] at h
      · simp [hp] at h

/-- A generate round that requests tool calls was bound with a non-`none`
tool choice (model contract), hence started below the tool budget. -/
theorem gen_calls_sub_budget (context : ChatRequestContext) (o : ChatOracle)
    (h1 : OracleRespectsToolChoice o) (rs : RunState)
    (hcalls : effectiveToolCalls
      (o.gen rs.genRound (computeToolChoice context rs.st)).toolCalls ≠ []) :
    getToolMessageCount rs.st.messages < MAX_TOOL_CALLS_PER_QUESTION := by
  by_contra hge
  have hnone : computeToolChoice context rs.st = "none" :=
    computeToolChoice_none context rs.st (by omega)
  rw [hnone] at hcalls
  exact hcalls (h1 rs.genRound)

/-- Per-step progress: from a non-terminal state satisfying `TInv`, one
step preserves `TInv` and either terminates or decreases the measure. -/
theorem stepRun_progress (context : ChatRequestContext) (tools : List ChatTool)
    (o : ChatOracle) (h1 : OracleRespectsToolChoice o) (rs : RunState)
    (hph : rs.phase ≠ Phase.done) (hinv : TInv rs) :
    TInv (stepRun context tools o rs) ∧
    ((stepRun context tools o rs).phase = Phase.done ∨
      muRun (stepRun context tools o rs) < muRun rs) := by
  cases hp : rs.phase with
  | done => exact absurd hp hph
  | generate =>
      have hstep : stepRun context tools o rs =
          { rs with
            st := runLlmAnswer context rs.st
              (o.gen rs.genRound (computeToolChoice context rs.st)),
            phase := routeAfterGeneration (runLlmAnswer context rs.st
              (o.gen rs.genRound (computeToolChoice context rs.st))),
            genRound := rs.genRound + 1 } := by
        simp only [stepRun, hp]
      set out := o.gen rs.genRound (computeToolChoice context rs.st) with hout
      set st2 := runLlmAnswer context rs.st out with hst2
      have hcount : getToolMessageCount st2.messages = getToolMessageCount rs.st.messages :=
        count_runLlmAnswer context rs.st out
      have hrc : st2.sufficiency_review_count = rs.st.sufficiency_review_count :=
        reviewCount_runLlmAnswer context rs.st out
      have hlast : st2.messages.getLast? =
          some (CMsg.ai out.content (effectiveToolCalls out.toolCalls)
            ((effectiveToolCalls out.toolCalls).isEmpty &&
              (requiresWorkflowGraphTools context.user_prompt || rs.st.messages.any isToolMsg))) := by
        rw [hst2]
        unfold runLlmAnswer
        simp only []
        exact List.getLast?_concat _
      have hphase : (stepRun context tools o rs).phase = routeAfterGeneration st2 := by
        rw [hstep]
      have hco : getToolMessageCount (stepRun context tools o rs).st.messages =
          getToolMessageCount rs.st.messages := by
        rw [hstep]
        exact hcount
      have hrc2 : (stepRun context tools o rs).st.sufficiency_review_count =
          rs.st.sufficiency_review_count := by
        rw [hstep]
        exact hrc
      constructor
      · -- TInv of the next state
        intro htools
        have htools2 : routeAfterGeneration st2 = Phase.tools := by
          rw [← hphase]
          exact htools
        have hne : effectiveToolCalls out.toolCalls ≠ [] := by
          intro hcon
          unfold routeAfterGeneration at htools2
          rw [hlast, hcon] at htools2
          simp at htools2
          split at htools2 <;> simp_all
        have hlast2 : (stepRun context tools o rs).st.messages.getLast? =
            some (CMsg.ai out.content (effectiveToolCalls out.toolCalls)
              ((effectiveToolCalls out.toolCalls).isEmpty &&
                (requiresWorkflowGraphTools context.user_prompt ||
                  rs.st.messages.any isToolMsg))) := by
          rw [hstep]
          exact hlast
        refine ⟨out.content, effectiveToolCalls out.toolCalls, _, hlast2, hne, ?_⟩
        rw [hco]
        apply gen_calls_sub_budget context o h1 rs
        rw [hout] at hne
        exact hne
      · -- the measure decreases (or we are done)
        by_cases hr1 : routeAfterGeneration st2 = Phase.done
        · left
          rw [hphase, hr1]
        · right
          have hw : (match routeAfterGeneration st2 with
              | Phase.generate => 1 | _ => 0) = 0 := by
            have hg := routeAfterGeneration_ne_generate st2
            cases hreq : routeAfterGeneration st2 <;> simp_all
          unfold muRun
          rw [hco, hrc2, hphase, hp, hw]
          simp
  | tools =>
      obtain ⟨c, tc, p, hlast, htc, hlt⟩ := hinv hp
      have hstep : stepRun context tools o rs =
          { rs with
            st := runToolsNode o rs.toolRound rs.st,
            phase := Phase.generate,
            toolRound := rs.toolRound + 1 } := by
        simp only [stepRun, hp]
      have hcount : getToolMessageCount (runToolsNode o rs.toolRound rs.st).messages =
          getToolMessageCount rs.st.messages + tc.length := by
        rw [count_runToolsNode, hlast]
      have hrc := reviewCount_runToolsNode o rs.toolRound rs.st
      constructor
      · intro hcon
        rw [hstep] at hcon
        simp at hcon
      · right
        rw [hstep]
        unfold muRun
        simp only [hp, hcount, hrc]
        have htclen : 1 ≤ tc.length := by
          cases tc with
          | nil => exact absurd rfl htc
          | cons x xs => simp
        have hm1 : min (getToolMessageCount rs.st.messages) MAX_TOOL_CALLS_PER_QUESTION =
            getToolMessageCount rs.st.messages := by
          unfold MAX_TOOL_CALLS_PER_QUESTION at hlt ⊢
          omega
        have hm2 : getToolMessageCount rs.st.messages + 1 ≤
            min (getToolMessageCount rs.st.messages + tc.length)
              MAX_TOOL_CALLS_PER_QUESTION := by
          unfold MAX_TOOL_CALLS_PER_QUESTION at hlt ⊢
          omega
        unfold MAX_TOOL_CALLS_PER_QUESTION at hlt hm1 hm2 ⊢
        omega
  | review =>
      have hstep : stepRun context tools o rs =
          { rs with
            st := ⟨rs.st.messages ++
                (runReviewAnswerSufficiency context tools (o.review rs.consults) rs.st).appended,
              (runReviewAnswerSufficiency context tools (o.review rs.consults) rs.st).review_guidance,
              (runReviewAnswerSufficiency context tools (o.review rs.consults) rs.st).force_tool_call,
              (runReviewAnswerSufficiency context tools (o.review rs.consults) rs.st).pending_answer_requires_review,
              (runReviewAnswerSufficiency context tools (o.review rs.consults) rs.st).sufficiency_review_action,
              (runReviewAnswerSufficiency context tools (o.review rs.consults) rs.st).sufficiency_review_count⟩,
            phase := if (runReviewAnswerSufficiency context tools
                (o.review rs.consults) rs.st).sufficiency_review_action = "call_tool"
              then Phase.generate else Phase.done,
            consults := rs.consults +
              (if (runReviewAnswerSufficiency context tools
                  (o.review rs.consults) rs.st).consulted then 1 else 0) } := by
        simp only [stepRun, hp]
      set res := runReviewAnswerSufficiency context tools (o.review rs.consults) rs.st with hres
      have hcount : getToolMessageCount (rs.st.messages ++ res.appended) =
          getToolMessageCount rs.st.messages :=
        count_after_review context tools (o.review rs.consults) rs.st
      constructor
      · intro hcon
        rw [hstep] at hcon
        simp only [] at hcon
        split at hcon <;> simp_all
      · by_cases hact : res.sufficiency_review_action = "call_tool"
        · right
          have hcons : res.consulted = true :=
            (review_shape context tools (o.review rs.consults) rs.st).2.2.2 hact
          obtain ⟨hc1, hc2⟩ :=
            (review_shape context tools (o.review rs.consults) rs.st).2.1 hcons
          have hphase : (stepRun context tools o rs).phase = Phase.generate := by
            rw [hstep]
            simp only [← hres, hact, if_pos]
          have hco : getToolMessageCount (stepRun context tools o rs).st.messages =
              getToolMessageCount rs.st.messages := by
            rw [hstep]
            exact hcount
          have hrc2 : (stepRun context tools o rs).st.sufficiency_review_count =
              rs.st.sufficiency_review_count + 1 := by
            rw [hstep]
            exact hc1
          unfold muRun
          rw [hco, hrc2, hphase, hp]
          unfold MAX_ANSWER_SUFFICIENCY_REVIEW_ROUNDS at hc2 ⊢
          unfold MAX_TOOL_CALLS_PER_QUESTION
          simp only []
          omega
        · left
          rw [hstep]
          simp only [hact]
          simp

/-- Any contract-respecting run from a `TInv` state terminates within
`muRun` steps. -/
theorem runLoop_terminates (context : ChatRequestContext) (tools : List ChatTool)
    (o : ChatOracle) (h1 : OracleRespectsToolChoice o) :
    ∀ (fuel : Nat) (rs : RunState), TInv rs → muRun rs < fuel →
      (runLoop context tools o fuel rs).phase = Phase.done := by
  intro fuel
  induction fuel with
  | zero =>
      intro rs _ h
      omega
  | succ n ih =>
      intro rs hinv hmu
      by_cases hd : rs.phase = Phase.done
      · rw [runLoop_done context tools o (n + 1) rs hd]
        exact hd
      · simp only [runLoop, if_neg hd]
        obtain ⟨hinv2, hstep⟩ := stepRun_progress context tools o h1 rs hd hinv
        rcases hstep with hdone | hlt
        · rw [runLoop_done context tools o n _ hdone]
          exact hdone
        · exact ih _ hinv2 (by omega)


/-- Reviewer consultations never outrun the (capped) review counter. -/
theorem stepRun_consults (context : ChatRequestContext) (tools : List ChatTool)
    (o : ChatOracle) (rs : RunState)
    (h : rs.consults ≤
      min rs.st.sufficiency_review_count MAX_ANSWER_SUFFICIENCY_REVIEW_ROUNDS) :
    (stepRun context tools o rs).consults ≤
      min (stepRun context tools o rs).st.sufficiency_review_count
        MAX_ANSWER_SUFFICIENCY_REVIEW_ROUNDS := by
  cases hp : rs.phase with
  | done =>
      have he : stepRun context tools o rs = rs := by
        simp [stepRun, hp]
      rw [he]
      exact h
  | generate =>
      have h1 : (stepRun context tools o rs).consults = rs.consults := by
        simp [stepRun, hp]
      have h2 : (stepRun context tools o rs).st.sufficiency_review_count =
          rs.st.sufficiency_review_count := by
        simp only [stepRun, hp]
        exact reviewCount_runLlmAnswer context rs.st _
      rw [h1, h2]
      exact h
  | tools =>
      have h1 : (stepRun context tools o rs).consults = rs.consults := by
        simp [stepRun, hp]
      have h2 : (stepRun context tools o rs).st.sufficiency_review_count =
          rs.st.sufficiency_review_count := by
        simp only [stepRun, hp]
        exact reviewCount_runToolsNode o rs.toolRound rs.st
      rw [h1, h2]
      exact h
  | review =>
      have h2 : (stepRun context tools o rs).st.sufficiency_review_count =
          (runReviewAnswerSufficiency context tools (o.review rs.consults)
            rs.st).sufficiency_review_count := by
        simp only [stepRun, hp]
      by_cases hc : (runReviewAnswerSufficiency context tools (o.review rs.consults)
          rs.st).consulted = true
      · obtain ⟨hc1, hc2⟩ :=
          (review_shape context tools (o.review rs.consults) rs.st).2.1 hc
        have h1 : (stepRun context tools o rs).consults = rs.consults + 1 := by
          simp [stepRun, hp, hc]
        rw [h1, h2, hc1]
        unfold MAX_ANSWER_SUFFICIENCY_REVIEW_ROUNDS at h hc2 ⊢
        omega
      · have hcf : (runReviewAnswerSufficiency context tools (o.review rs.consults)
            rs.st).consulted = false := by
          revert hc
          cases (runReviewAnswerSufficiency context tools (o.review rs.consults)
            rs.st).consulted <;> simp
        have hc1 := (review_shape context tools (o.review rs.consults) rs.st).2.2.1 hcf
        have h1 : (stepRun context tools o rs).consults = rs.consults := by
          simp [stepRun, hp, hcf]
        rw [h1, h2, hc1]
        exact h

theorem runLoop_consults (context : ChatRequestContext) (tools : List ChatTool)
    (o : ChatOracle) :
    ∀ (fuel : Nat) (rs : RunState),
      rs.consults ≤
        min rs.st.sufficiency_review_count MAX_ANSWER_SUFFICIENCY_REVIEW_ROUNDS →
      (runLoop context tools o fuel rs).consults ≤
        min (runLoop context tools o fuel rs).st.sufficiency_review_count
          MAX_ANSWER_SUFFICIENCY_REVIEW_ROUNDS := by
  intro fuel
  induction fuel with
  | zero =>
      intro rs h
      exact h
  | succ n ih =>
      intro rs h
      by_cases hd : rs.phase = Phase.done
      · rw [runLoop_done context tools o (n + 1) rs hd]
        exact h
      · simp only [runLoop, if_neg hd]
        exact ih _ (stepRun_consults context tools o rs h)

/-- Budget invariant: at most three tool results ever, and the tools node
is only entered below the budget, with at most one requested call. -/
def BInv (rs : RunState) : Prop :=
  getToolMessageCount rs.st.messages ≤ MAX_TOOL_CALLS_PER_QUESTION ∧
  (rs.phase = Phase.tools →
    ∃ c tc p, rs.st.messages.getLast? = some (CMsg.ai c tc p) ∧ tc.length ≤ 1 ∧
      getToolMessageCount rs.st.messages < MAX_TOOL_CALLS_PER_QUESTION)

theorem stepRun_budget (context : ChatRequestContext) (tools : List ChatTool)
    (o : ChatOracle) (h1 : OracleRespectsToolChoice o) (h2 : OracleSingleToolCall o)
    (rs : RunState) (hb : BInv rs) : BInv (stepRun context tools o rs) := by
  obtain ⟨hb1, hb2⟩ := hb
  cases hp : rs.phase with
  | done =>
      have he : stepRun context tools o rs = rs := by
        simp [stepRun, hp]
      rw [he]
      exact ⟨hb1, hb2⟩
  | generate =>
      set out := o.gen rs.genRound (computeToolChoice context rs.st) with hout
      set st2 := runLlmAnswer context rs.st out with hst2
      have hstep : stepRun context tools o rs =
          { rs with
            st := st2,
            phase := routeAfterGeneration st2,
            genRound := rs.genRound + 1 } := by
        simp only [stepRun, hp, hst2, hout]
      have hco : getToolMessageCount (stepRun context tools o rs).st.messages =
          getToolMessageCount rs.st.messages := by
        rw [hstep]
        exact count_runLlmAnswer context rs.st out
      have hphase : (stepRun context tools o rs).phase = routeAfterGeneration st2 := by
        rw [hstep]
      constructor
      · rw [hco]
        exact hb1
      · intro htools
        have htools2 : routeAfterGeneration st2 = Phase.tools := by
          rw [← hphase]
          exact htools
        have hlast : st2.messages.getLast? =
            some (CMsg.ai out.content (effectiveToolCalls out.toolCalls)
              ((effectiveToolCalls out.toolCalls).isEmpty &&
                (requiresWorkflowGraphTools context.user_prompt ||
                  rs.st.messages.any isToolMsg))) := by
          rw [hst2]
          unfold runLlmAnswer
          exact List.getLast?_concat _
        have hne : effectiveToolCalls out.toolCalls ≠ [] := by
          intro hcon
          unfold routeAfterGeneration at htools2
          rw [hlast, hcon] at htools2
          simp at htools2
          split at htools2 <;> simp_all
        have hlast2 : (stepRun context tools o rs).st.messages.getLast? =
            some (CMsg.ai out.content (effectiveToolCalls out.toolCalls)
              ((effectiveToolCalls out.toolCalls).isEmpty &&
                (requiresWorkflowGraphTools context.user_prompt ||
                  rs.st.messages.any isToolMsg))) := by
          rw [hstep]
          exact hlast
        refine ⟨out.content, effectiveToolCalls out.toolCalls, _, hlast2, ?_, ?_⟩
        · rw [hout]
          exact h2 rs.genRound (computeToolChoice context rs.st)
        · rw [hco]
          apply gen_calls_sub_budget context o h1 rs
          rw [hout] at hne
          exact hne
  | tools =>
      obtain ⟨c, tc, p, hlast, hlen, hlt⟩ := hb2 hp
      have hstep : stepRun context tools o rs =
          { rs with
            st := runToolsNode o rs.toolRound rs.st,
            phase := Phase.generate,
            toolRound := rs.toolRound + 1 } := by
        simp only [stepRun, hp]
      have hco : getToolMessageCount (stepRun context tools o rs).st.messages =
          getToolMessageCount rs.st.messages + tc.length := by
        rw [hstep]
        have := count_runToolsNode o rs.toolRound rs.st
        rw [hlast] at this
        exact this
      constructor
      · rw [hco]
        unfold MAX_TOOL_CALLS_PER_QUESTION at hlt ⊢
        omega
      · intro hcon
        rw [hstep] at hcon
        simp at hcon
  | review =>
      have hstep : (stepRun context tools o rs).st.messages = rs.st.messages ++
          (runReviewAnswerSufficiency context tools (o.review rs.consults)
            rs.st).appended := by
        simp only [stepRun, hp]
      have hco : getToolMessageCount (stepRun context tools o rs).st.messages =
          getToolMessageCount rs.st.messages := by
        rw [hstep]
        exact count_after_review context tools (o.review rs.consults) rs.st
      constructor
      · rw [hco]
        exact hb1
      · intro hcon
        have hph2 : (stepRun context tools o rs).phase =
            (if (runReviewAnswerSufficiency context tools (o.review rs.consults)
                rs.st).sufficiency_review_action = "call_tool"
             then Phase.generate else Phase.done) := by
          simp only [stepRun, hp]
        rw [hph2] at hcon
        split at hcon <;> simp_all

theorem runLoop_budget (context : ChatRequestContext) (tools : List ChatTool)
    (o : ChatOracle) (h1 : OracleRespectsToolChoice o) (h2 : OracleSingleToolCall o) :
    ∀ (fuel : Nat) (rs : RunState), BInv rs → BInv (runLoop context tools o fuel rs) := by
  intro fuel
  induction fuel with
  | zero =>
      intro rs h
      exact h
  | succ n ih =>
      intro rs h
      by_cases hd : rs.phase = Phase.done
      · rw [runLoop_done context tools o (n + 1) rs hd]
        exact h
      · simp only [runLoop, if_neg hd]
        exact ih _ (stepRun_budget context tools o h1 h2 rs h)

/-- The initial message list of a request whose session history holds no
tool-result messages starts with a zero tool count. -/
theorem count_initRunState (sysPrompt : String) (history : List CMsg)
    (context : ChatRequestContext) (hh : history.all (fun m => !isToolMsg m) = true) :
    getToolMessageCount (initRunState sysPrompt history context).st.messages = 0 := by
  have hhist : List.countP isToolMsg history = 0 := by
    rw [List.countP_eq_zero]
    intro a ha
    have := List.all_eq_true.mp hh a ha
    simp at this
    simp [this]
  simp [initRunState, getToolMessageCount, List.countP_append, hhist, isToolMsg]


/-!
Part 2e: remaining supporting lemmas for the chat-side claims.
-/

/-- The need-user-input message is never empty: either the upstream
guidance (non-empty) or the default text. -/
theorem buildNeedUserInputMessage_ne_empty (missing_info : List String)
    (user_guidance : String) : buildNeedUserInputMessage missing_info user_guidance ≠ "" := by
  unfold buildNeedUserInputMessage
  by_cases h : user_guidance ≠ ""
  · rw [if_pos h]
    exact h
  · rw [if_neg h]
    intro hcon
    have hlen := congrArg String.length hcon
    simp only [String.length_append] at hlen
    have hpos : 0 < ("当前我还无法给出可靠结论。" : String).length := by decide
    have hpos2 : 0 < ("缺少：" : String).length := by decide
    have hz : ("" : String).length = 0 := by decide
    omega

theorem getToolMessageCount_of_no_tool (messages : List CMsg)
    (h : messages.any isToolMsg = false) : getToolMessageCount messages = 0 := by
  unfold getToolMessageCount
  rw [List.countP_eq_zero]
  intro a ha
  have := List.any_eq_false.mp h a ha
  simp_all

theorem noNewEvidenceStreak_of_no_tool (messages : List CMsg)
    (h : messages.any isToolMsg = false) : noNewEvidenceStreak messages = 0 := by
  have hall : ∀ m ∈ messages, isToolMsg m = false := by
    intro m hm
    have := List.any_eq_false.mp h m hm
    simp_all
  have aux : ∀ (l : List CMsg) (acc : List String × Nat),
      (∀ m ∈ l, isToolMsg m = false) →
      l.foldl (fun (acc : List String × Nat) m =>
        match m with
        | .tool _ content =>
            let normalized := pyStrip content
            if normalized = "" ∨ memKey acc.1 normalized then (acc.1, acc.2 + 1)
            else (acc.1 ++ [normalized], 0)
        | _ => acc) acc = acc := by
    intro l
    induction l with
    | nil =>
        intro acc _
        rfl
    | cons m rest ih =>
        intro acc hl
        have hm := hl m (List.mem_cons_self _ _)
        cases m with
        | tool n c => simp [isToolMsg] at hm
        | system c => exact ih acc (fun x hx => hl x (List.mem_cons_of_mem _ hx))
        | user c => exact ih acc (fun x hx => hl x (List.mem_cons_of_mem _ hx))
        | ai c tc p => exact ih acc (fun x hx => hl x (List.mem_cons_of_mem _ hx))
  unfold noNewEvidenceStreak
  rw [aux messages ([], 0) hall]


/-!
Part 2f: chat-side claims.
-/

/-- C6: the precedence order of `resolve_tool_choice`: budget check, then
no-new-evidence streak, then any-tool-result, then the workflow-keyword
check, else `auto`. In particular, with no tool result in history the
budget and streak gates always pass. -/
theorem resolve_tool_choice_precedence (context : ChatRequestContext)
    (messages : List CMsg) :
    (getToolMessageCount messages ≥ MAX_TOOL_CALLS_PER_QUESTION →
      resolve_tool_choice context messages = "none") ∧
    (getToolMessageCount messages < MAX_TOOL_CALLS_PER_QUESTION →
      noNewEvidenceStreak messages ≥ NO_NEW_EVIDENCE_STOP_STREAK →
      resolve_tool_choice context messages = "none") ∧
    (getToolMessageCount messages < MAX_TOOL_CALLS_PER_QUESTION →
      noNewEvidenceStreak messages < NO_NEW_EVIDENCE_STOP_STREAK →
      messages.any isToolMsg = true →
      resolve_tool_choice context messages = "auto") ∧
    (messages.any isToolMsg = false →
      requiresWorkflowGraphTools context.user_prompt = true →
      resolve_tool_choice context messages = "required") ∧
    (messages.any isToolMsg = false →
      requiresWorkflowGraphTools context.user_prompt = false →
      resolve_tool_choice context messages = "auto") := by
  refine ⟨?_, ?_, ?_, ?_, ?_⟩
  · intro h
    simp [resolve_tool_choice, h]
  · intro h1 h2
    have hne : ¬ getToolMessageCount messages ≥ MAX_TOOL_CALLS_PER_QUESTION := by omega
    simp [resolve_tool_choice, hne, h2]
  · intro h1 h2 h3
    have hne1 : ¬ getToolMessageCount messages ≥ MAX_TOOL_CALLS_PER_QUESTION := by omega
    have hne2 : ¬ noNewEvidenceStreak messages ≥ NO_NEW_EVIDENCE_STOP_STREAK := by omega
    simp [resolve_tool_choice, hne1, hne2, h3]
  · intro h1 h2
    have hc := getToolMessageCount_of_no_tool messages h1
    have hs := noNewEvidenceStreak_of_no_tool messages h1
    have hne1 : ¬ getToolMessageCount messages ≥ MAX_TOOL_CALLS_PER_QUESTION := by
      rw [hc]
      decide
    have hne2 : ¬ noNewEvidenceStreak messages ≥ NO_NEW_EVIDENCE_STOP_STREAK := by
      rw [hs]
      decide
    simp [resolve_tool_choice, hne1, hne2, h1, h2]
  · intro h1 h2
    have hc := getToolMessageCount_of_no_tool messages h1
    have hs := noNewEvidenceStreak_of_no_tool messages h1
    have hne1 : ¬ getToolMessageCount messages ≥ MAX_TOOL_CALLS_PER_QUESTION := by
      rw [hc]
      decide
    have hne2 : ¬ noNewEvidenceStreak messages ≥ NO_NEW_EVIDENCE_STOP_STREAK := by
      rw [hs]
      decide
    simp [resolve_tool_choice, hne1, hne2, h1, h2]

/-- C6 witness: one concrete history per precedence rule. -/
theorem resolve_tool_choice_precedence_witness :
    resolve_tool_choice ⟨"节点"⟩
      [CMsg.tool "a" "1", CMsg.tool "b" "2", CMsg.tool "c" "3"] = "none" ∧
    resolve_tool_choice ⟨"节点"⟩ [CMsg.tool "a" "", CMsg.tool "b" ""] = "none" ∧
    resolve_tool_choice ⟨"节点"⟩ [CMsg.tool "a" "r1"] = "auto" ∧
    resolve_tool_choice ⟨"workflow question"⟩ [] = "required" ∧
    resolve_tool_choice ⟨"hi"⟩ [] = "auto" := by
  refine ⟨(resolve_tool_choice_precedence ⟨"节点"⟩ _).1 (by decide),
    (resolve_tool_choice_precedence ⟨"节点"⟩ _).2.1 (by decide) (by decide),
    (resolve_tool_choice_precedence ⟨"节点"⟩ _).2.2.1 (by decide) (by decide) (by decide),
    (resolve_tool_choice_precedence ⟨"workflow question"⟩ _).2.2.2.1 (by decide) (by decide),
    (resolve_tool_choice_precedence ⟨"hi"⟩ _).2.2.2.2 (by decide) (by decide)⟩

/-- C7: when the reviewer model call raises (or the result is
unparseable), the review step fails closed: effective verdict is
need-user-input, the emitted final message is the default user-guidance
text (never the pending candidate, never `sufficient`), the round counter
still increments, and the loop routes to the terminal state. -/
theorem reviewer_failure_fails_closed (context : ChatRequestContext)
    (tools : List ChatTool) (st : ChatLoopState)
    (hcount : st.sufficiency_review_count < MAX_ANSWER_SUFFICIENCY_REVIEW_ROUNDS)
    (hpending : st.pending_answer_requires_review = true)
    (hfind : ((st.messages.reverse).find? isReviewPendingAnswerMessage).isSome = true) :
    (runReviewAnswerSufficiency context tools none st).sufficiency_review_action =
      "ask_user" ∧
    (runReviewAnswerSufficiency context tools none st).appended =
      [CMsg.ai (buildNeedUserInputMessage [] "") [] false] ∧
    (runReviewAnswerSufficiency context tools none st).consulted = true ∧
    (runReviewAnswerSufficiency context tools none st).sufficiency_review_count =
      st.sufficiency_review_count + 1 ∧
    (∀ (o : ChatOracle) (rs : RunState), rs.phase = Phase.review → rs.st = st →
      o.review rs.consults = none → (stepRun context tools o rs).phase = Phase.done) := by
  have h3 : ¬ st.sufficiency_review_count ≥ MAX_ANSWER_SUFFICIENCY_REVIEW_ROUNDS := by
    omega
  have hp2 : ¬ st.pending_answer_requires_review = false := by
    simp [hpending]
  obtain ⟨pa, hpa⟩ := Option.isSome_iff_exists.mp hfind
  have heq := review_normal_path context tools none st pa h3 hp2 hpa
  have hred : reviewNormalBranch context tools none st pa =
      ⟨[CMsg.ai (buildNeedUserInputMessage [] "") [] false], "", false, false, "ask_user",
        st.sufficiency_review_count + 1, true⟩ := by
    simp [reviewNormalBranch, effectiveVerdict, fallbackVerdict, reviewDecision]
  refine ⟨?_, ?_, ?_, ?_, ?_⟩
  · rw [heq, hred]
  · rw [heq, hred]
  · rw [heq, hred]
  · rw [heq, hred]
  · intro o rs hph hst hrev
    have hph2 : (stepRun context tools o rs).phase =
        (if (runReviewAnswerSufficiency context tools (o.review rs.consults)
            rs.st).sufficiency_review_action = "call_tool"
         then Phase.generate else Phase.done) := by
      simp only [stepRun, hph]
    rw [hst, hrev, heq, hred] at hph2
    rw [hph2]
    simp

/-- Fixture: a review-phase state holding a pending candidate answer. -/
def stReview : ChatLoopState :=
  ⟨[CMsg.system "s", CMsg.user "q", CMsg.ai "cand" [] true], "", false, true, "answer", 0⟩

/-- Fixture: an oracle whose reviewer call always fails. -/
def oFail : ChatOracle := ⟨fun _ _ => ⟨"", []⟩, fun _ _ _ => "", fun _ => none⟩

def rsReview : RunState := ⟨stReview, Phase.review, 0, 0, 0⟩

/-- C7 witness: concrete pending-review state with a failing reviewer. -/
theorem reviewer_failure_fails_closed_witness :
    (runReviewAnswerSufficiency ⟨"q"⟩ [] none stReview).sufficiency_review_action =
      "ask_user" ∧
    (runReviewAnswerSufficiency ⟨"q"⟩ [] none stReview).appended =
      [CMsg.ai (buildNeedUserInputMessage [] "") [] false] ∧
    (runReviewAnswerSufficiency ⟨"q"⟩ [] none stReview).consulted = true ∧
    (runReviewAnswerSufficiency ⟨"q"⟩ [] none stReview).sufficiency_review_count = 1 ∧
    (stepRun ⟨"q"⟩ [] oFail rsReview).phase = Phase.done := by
  have h := reviewer_failure_fails_closed ⟨"q"⟩ [] stReview (by decide) (by decide) (by decide)
  exact ⟨h.1, h.2.1, h.2.2.1, h.2.2.2.1, h.2.2.2.2 oFail rsReview rfl rfl rfl⟩


/-- C8: a raw `need_more_tools` verdict is downgraded to
`need_user_input` (terminal `ask_user` with an emitted guidance message)
when (a) the remaining tool budget is zero, (b) the candidate tool list
is empty, or (c) the suggested tool is not among the candidate names; the
emitted message is always non-empty. `v` is a validated verdict (pydantic
normalization is idempotent on it). -/
theorem need_more_tools_downgraded (context : ChatRequestContext) (tools : List ChatTool)
    (st : ChatLoopState) (v : ReviewVerdict)
    (hnorm : normalizeVerdict v = v)
    (hstatus : v.status = "need_more_tools")
    (hcount : st.sufficiency_review_count < MAX_ANSWER_SUFFICIENCY_REVIEW_ROUNDS)
    (hpending : st.pending_answer_requires_review = true)
    (hfind : ((st.messages.reverse).find? isReviewPendingAnswerMessage).isSome = true)
    (hcase :
      (buildReviewPayload context st.messages st.review_guidance
        tools).remaining_tool_call_count = 0 ∨
      (buildReviewPayload context st.messages st.review_guidance
        tools).candidate_tools = [] ∨
      memKey (candidateToolNames (buildReviewPayload context st.messages st.review_guidance
        tools)) v.suggested_tool_name = false) :
    (runReviewAnswerSufficiency context tools (some v) st).sufficiency_review_action =
      "ask_user" ∧
    ∃ g, (runReviewAnswerSufficiency context tools (some v) st).appended =
        [CMsg.ai g [] false] ∧ g ≠ "" := by
  have h3 : ¬ st.sufficiency_review_count ≥ MAX_ANSWER_SUFFICIENCY_REVIEW_ROUNDS := by
    omega
  have hp2 : ¬ st.pending_answer_requires_review = false := by
    simp [hpending]
  obtain ⟨pa, hpa⟩ := Option.isSome_iff_exists.mp hfind
  have heq := review_normal_path context tools (some v) st pa h3 hp2 hpa
  have hev : effectiveVerdict (some v) = v := by
    show (if memKey allowedReviewStatuses v.status = true then normalizeVerdict v
      else fallbackVerdict) = v
    rw [hstatus, if_pos (by decide), hnorm]
  have hsugg : pyStrip v.suggested_tool_name = v.suggested_tool_name :=
    congrArg ReviewVerdict.suggested_tool_name hnorm
  have hguid : pyStrip v.user_guidance = v.user_guidance :=
    congrArg ReviewVerdict.user_guidance hnorm
  rw [heq]
  simp only [reviewNormalBranch]
  rw [hev, hsugg, hguid, hstatus]
  rcases hcase with hA | hB | hC
  · rw [hA]
    constructor
    · simp [reviewDecision]
    · refine ⟨buildNeedUserInputMessage v.missing_info v.user_guidance, ?_,
        buildNeedUserInputMessage_ne_empty _ _⟩
      simp [reviewDecision]
  · rw [hB]
    by_cases hrem : (buildReviewPayload context st.messages st.review_guidance
        tools).remaining_tool_call_count = 0
    · rw [hrem]
      constructor
      · simp [reviewDecision]
      · refine ⟨buildNeedUserInputMessage v.missing_info v.user_guidance, ?_,
          buildNeedUserInputMessage_ne_empty _ _⟩
        simp [reviewDecision]
    · constructor
      · simp [reviewDecision, hrem]
      · refine ⟨buildNeedUserInputMessage v.missing_info v.user_guidance, ?_,
          buildNeedUserInputMessage_ne_empty _ _⟩
        simp [reviewDecision, hrem]
  · by_cases hrem : (buildReviewPayload context st.messages st.review_guidance
        tools).remaining_tool_call_count = 0
    · rw [hrem]
      constructor
      · simp [reviewDecision]
      · refine ⟨buildNeedUserInputMessage v.missing_info v.user_guidance, ?_,
          buildNeedUserInputMessage_ne_empty _ _⟩
        simp [reviewDecision]
    · by_cases hcand : (buildReviewPayload context st.messages st.review_guidance
          tools).candidate_tools.isEmpty = true
      · constructor
        · simp [reviewDecision, hrem, hcand]
        · refine ⟨buildNeedUserInputMessage v.missing_info v.user_guidance, ?_,
            buildNeedUserInputMessage_ne_empty _ _⟩
          simp [reviewDecision, hrem, hcand]
      · by_cases hug : v.user_guidance = ""
        · constructor
          · simp [reviewDecision, hrem, hcand, hC, hug]
          · refine ⟨buildNeedUserInputMessage v.missing_info
              (buildNeedUserInputMessage [] ""), ?_,
              buildNeedUserInputMessage_ne_empty _ _⟩
            simp [reviewDecision, hrem, hcand, hC, hug]
        · constructor
          · simp [reviewDecision, hrem, hcand, hC, hug]
          · refine ⟨buildNeedUserInputMessage v.missing_info v.user_guidance, ?_,
              buildNeedUserInputMessage_ne_empty _ _⟩
            simp [reviewDecision, hrem, hcand, hC, hug]

/-- Fixture: a validated `need_more_tools` verdict suggesting a tool that
is not registered. -/
def vGhost : ReviewVerdict := ⟨"need_more_tools", [], "ghost_tool", [], ""⟩

/-- C8 witness: Scenario D — `need_more_tools` suggesting `ghost_tool`
while only `tool_a` is a candidate is coerced to `need_user_input` with a
non-empty guidance message. -/
theorem need_more_tools_downgraded_witness :
    (runReviewAnswerSufficiency ⟨"q"⟩ [⟨"tool_a", "d"⟩] (some vGhost)
      stReview).sufficiency_review_action = "ask_user" ∧
    ∃ g, (runReviewAnswerSufficiency ⟨"q"⟩ [⟨"tool_a", "d"⟩] (some vGhost)
        stReview).appended = [CMsg.ai g [] false] ∧ g ≠ "" := by
  have h := need_more_tools_downgraded ⟨"q"⟩ [⟨"tool_a", "d"⟩] stReview vGhost
    rfl rfl (by decide) (by decide) (by decide)
    (Or.inr (Or.inr (by decide)))
  exact h


/-- Fixture: a context whose prompt matches no workflow keyword. -/
def ctxPlain : ChatRequestContext := ⟨"hello"⟩

/-- Fixture: a contract-respecting model that requests two tool calls in
each of its first two rounds, then answers; distinct tool results. -/
def oTwoCalls : ChatOracle :=
  { gen := fun n choice =>
      if choice = "none" then ⟨"final answer", []⟩
      else if n = 0 then ⟨"", ["t1", "t2"]⟩
      else if n = 1 then ⟨"", ["t3", "t4"]⟩
      else ⟨"candidate", []⟩,
    toolResult := fun r i nm => "res" ++ toString r ++ toString i ++ nm,
    review := fun _ => some ⟨"sufficient", [], "", [], ""⟩ }

/-- C4 counterexample: a model respecting the tool-choice contract but
issuing two tool calls per round drives the conversation to FOUR
tool-result messages — the per-question budget of 3 only gates the start
of a round, not the number of calls inside one. -/
theorem tool_budget_exceeded :
    OracleRespectsToolChoice oTwoCalls ∧
    getToolMessageCount (runLoop ctxPlain [] oTwoCalls 30
      (initRunState "sys" [] ctxPlain)).st.messages = 4 := by
  constructor
  · intro n
    rfl
  · decide

/-- C4 (amended): once history holds three tool results every later round
binds tool choice `none`, so no further tool result is ever produced; the
claimed bound of 3 holds whenever each model response carries at most one
tool call. -/
theorem tool_budget_amended (context : ChatRequestContext) (tools : List ChatTool)
    (o : ChatOracle) (h1 : OracleRespectsToolChoice o) (h2 : OracleSingleToolCall o)
    (sysPrompt : String) (history : List CMsg)
    (hh : history.all (fun m => !isToolMsg m) = true) (fuel : Nat) :
    getToolMessageCount (runLoop context tools o fuel
      (initRunState sysPrompt history context)).st.messages ≤
      MAX_TOOL_CALLS_PER_QUESTION := by
  have hinit : BInv (initRunState sysPrompt history context) := by
    constructor
    · rw [count_initRunState sysPrompt history context hh]
      unfold MAX_TOOL_CALLS_PER_QUESTION
      omega
    · intro hcon
      simp [initRunState] at hcon
  exact (runLoop_budget context tools o h1 h2 fuel _ hinit).1

/-- Fixture: a contract-respecting model issuing at most one tool call
per response. -/
def oOneCall : ChatOracle :=
  { gen := fun n choice =>
      if choice = "none" then ⟨"final answer", []⟩
      else if n = 0 then ⟨"", ["t1"]⟩
      else ⟨"candidate", []⟩,
    toolResult := fun r i nm => "res" ++ toString r ++ toString i ++ nm,
    review := fun _ => some ⟨"sufficient", [], "", [], ""⟩ }

theorem oOneCall_single : OracleSingleToolCall oOneCall := by
  intro n c
  by_cases hc : c = "none"
  · simp [oOneCall, hc]
    decide
  · by_cases hn : n = 0
    · simp [oOneCall, hc, hn]
      decide
    · simp [oOneCall, hc, hn]
      decide

/-- C4 amended witness: a single-call model run stays within the budget. -/
theorem tool_budget_amended_witness :
    getToolMessageCount (runLoop ctxPlain [] oOneCall 30
      (initRunState "sys" [] ctxPlain)).st.messages ≤ MAX_TOOL_CALLS_PER_QUESTION :=
  tool_budget_amended ctxPlain [] oOneCall (fun _ => rfl) oOneCall_single
    "sys" [] rfl 30

/-- C9: (i) once the review-round counter has reached the ceiling of 3
the review node returns `ask_user` without consulting the reviewer model;
(ii) every consulting review invocation increments the counter; (iii) any
contract-respecting run from a fresh state terminates within a fixed
number of node executions with at most 3 reviewer consultations — in
particular any sequence of `need_more_tools` verdicts reaches a terminal
state (`answer` or `ask_user`) within 3 review rounds. -/
theorem review_rounds_bounded (context : ChatRequestContext) (tools : List ChatTool)
    (o : ChatOracle) (h1 : OracleRespectsToolChoice o) (st0 : ChatLoopState)
    (h0 : st0.sufficiency_review_count = 0) :
    (∀ (outcome : Option ReviewVerdict) (st : ChatLoopState),
        st.sufficiency_review_count ≥ MAX_ANSWER_SUFFICIENCY_REVIEW_ROUNDS →
        (runReviewAnswerSufficiency context tools outcome st).sufficiency_review_action =
          "ask_user" ∧
        (runReviewAnswerSufficiency context tools outcome st).consulted = false) ∧
    (∀ (outcome : Option ReviewVerdict) (st : ChatLoopState),
        (runReviewAnswerSufficiency context tools outcome st).consulted = true →
        (runReviewAnswerSufficiency context tools outcome st).sufficiency_review_count =
          st.sufficiency_review_count + 1) ∧
    (runLoop context tools o 14 ⟨st0, Phase.generate, 0, 0, 0⟩).phase = Phase.done ∧
    (runLoop context tools o 14 ⟨st0, Phase.generate, 0, 0, 0⟩).consults ≤
      MAX_ANSWER_SUFFICIENCY_REVIEW_ROUNDS := by
  refine ⟨?_, ?_, ?_, ?_⟩
  · intro outcome st h
    exact ⟨(review_ceiling context tools outcome st h).1,
      (review_ceiling context tools outcome st h).2.1⟩
  · intro outcome st h
    exact ((review_shape context tools outcome st).2.1 h).1
  · apply runLoop_terminates context tools o h1 14
    · intro hcon
      simp at hcon
    · have := muRun_le ⟨st0, Phase.generate, 0, 0, 0⟩
      omega
  · have h := runLoop_consults context tools o 14 ⟨st0, Phase.generate, 0, 0, 0⟩
      (by simp [h0])
    exact le_trans h (Nat.min_le_right _ _)

/-- Fixture: a reviewer that always answers `need_more_tools`. -/
def oAlwaysMore : ChatOracle :=
  { gen := fun _ _ => ⟨"candidate", []⟩,
    toolResult := fun _ _ _ => "r",
    review := fun _ => some ⟨"need_more_tools", ["x"], "tool_a", [], ""⟩ }

/-- C9 witness: under an always-`need_more_tools` reviewer the loop
terminates with at most 3 consultations. -/
theorem review_rounds_bounded_witness :
    (runLoop ⟨"节点"⟩ [⟨"tool_a", "d"⟩] oAlwaysMore 14
      ⟨⟨[CMsg.system "s", CMsg.user "节点"], "", false, false, "answer", 0⟩,
        Phase.generate, 0, 0, 0⟩).phase = Phase.done ∧
    (runLoop ⟨"节点"⟩ [⟨"tool_a", "d"⟩] oAlwaysMore 14
      ⟨⟨[CMsg.system "s", CMsg.user "节点"], "", false, false, "answer", 0⟩,
        Phase.generate, 0, 0, 0⟩).consults ≤ MAX_ANSWER_SUFFICIENCY_REVIEW_ROUNDS := by
  have h := review_rounds_bounded ⟨"节点"⟩ [⟨"tool_a", "d"⟩] oAlwaysMore
    (fun _ => rfl) ⟨[CMsg.system "s", CMsg.user "节点"], "", false, false, "answer", 0⟩ rfl
  exact ⟨h.2.2.1, h.2.2.2⟩

end Nexus
